import Mathlib

/-!
Verification of the App-Financeiro personal finance tracker.

The development shallowly embeds the JavaScript (Google Apps Script) source
of the repository into Lean:

* amounts, quantities and prices are rationals (the source treats them as
  exact decimal values and works in integer cents where drift matters);
* calendar dates are `year/month/day` triples; the platform `Date` object's
  month/day normalisation is modelled for day values up to 31, which is all
  the `YYYY-MM-DD` validated inputs can produce;
* JavaScript string primitives used by the source (`trim`, `toLowerCase`,
  code-unit comparison, `parseFloat` on the importer's cleaned alphabet)
  are given executable char-list implementations;
* the spreadsheet is a list of typed rows inside an `AppState`; platform
  services (UUIDs, clock, SHA-256 digest) enter as explicit arguments.

Definitions come first, then the theorems about them.
-/

namespace App

/-! ### JavaScript number and string primitives -/

/-- JavaScript `Math.round` (round half towards positive infinity). -/
def jsRound (q : ℚ) : ℤ := ⌊q + 1 / 2⌋

/-- The usual JavaScript whitespace characters handled by `String.trim`. -/
def isJsWhitespace (c : Char) : Bool :=
  c = ' ' || c = '\t' || c = '\n' || c = '\r'

/-- JavaScript `String.prototype.trim` on the char list. -/
def jsTrim (s : String) : String :=
  ⟨((s.data.dropWhile isJsWhitespace).reverse.dropWhile isJsWhitespace).reverse⟩

/-- JavaScript `String.prototype.toLowerCase` (ASCII range, which is all the
source compares). -/
def jsToLower (s : String) : String := ⟨s.data.map Char.toLower⟩

/-- JavaScript `String.prototype.toUpperCase` (ASCII range). -/
def jsToUpper (s : String) : String := ⟨s.data.map Char.toUpper⟩

/-- Strict code-unit lexicographic comparison of char lists, as JavaScript
`<`/`>`/`localeCompare` behave on the ASCII date strings the source compares. -/
def jsStrLtList : List Char → List Char → Bool
  | [], [] => false
  | [], _ :: _ => true
  | _ :: _, [] => false
  | a :: as, b :: bs =>
    if a.toNat < b.toNat then true
    else if b.toNat < a.toNat then false
    else jsStrLtList as bs

/-- JavaScript `a < b` on strings. -/
def jsStrLt (a b : String) : Bool := jsStrLtList a.data b.data

/-- JavaScript `a <= b` on strings. -/
def jsStrLe (a b : String) : Bool := !jsStrLt b a

/-- Value of a list of decimal digit characters. -/
def digitsToNat (l : List Char) : ℕ :=
  l.foldl (fun n c => n * 10 + (c.toNat - 48)) 0

/-- Rendering `String(n).padStart(2, '0')` for the day/month fields. -/
def pad2 (n : ℕ) : String := if n < 10 then "0" ++ toString n else toString n

/-! ### Calendar dates (`01.utils.js` `addMonths`, `calculateInstallmentDate`) -/

/-- A calendar date as the platform `Date` getters expose it:
`year`, `month` (1–12) and `day` (1–31). -/
structure CalDate where
  year : ℤ
  month : ℕ
  day : ℕ
deriving Repr, DecidableEq, Inhabited

/-- Gregorian leap-year rule, as the platform `Date` implements it. -/
def isLeapYear (y : ℤ) : Bool :=
  y % 4 = 0 && (y % 100 ≠ 0 || y % 400 = 0)

/-- Number of days of month `m` (1–12) in year `y`. -/
def daysInMonth (y : ℤ) (m : ℕ) : ℕ :=
  if m = 2 then (if isLeapYear y then 29 else 28)
  else if m = 4 ∨ m = 6 ∨ m = 9 ∨ m = 11 then 30
  else 31

/-- The platform `Date` normalisation after `setMonth`: a day past the end of
the month rolls into the following month.  One roll suffices for `day ≤ 31`,
which the `YYYY-MM-DD` inputs guarantee. -/
def rollDay (y : ℤ) (m d : ℕ) : CalDate :=
  if d ≤ daysInMonth y m then ⟨y, m, d⟩
  else if m = 12 then ⟨y + 1, 1, d - daysInMonth y m⟩
  else ⟨y, m + 1, d - daysInMonth y m⟩

/-- Platform `setDate(0)`: move to the last day of the previous month. -/
def setDateZero (dt : CalDate) : CalDate :=
  if dt.month = 1 then ⟨dt.year - 1, 12, 31⟩
  else ⟨dt.year, dt.month - 1, daysInMonth dt.year (dt.month - 1)⟩

/-- Zero-based month index `month - 1 + k` that `setMonth` receives. -/
def targetMonthIdx (dt : CalDate) (k : ℕ) : ℕ := dt.month - 1 + k

/-- The year after `setMonth(month - 1 + k)` normalises the month index. -/
def targetYear (dt : CalDate) (k : ℕ) : ℤ := dt.year + (targetMonthIdx dt k / 12 : ℕ)

/-- The (1-based) month after `setMonth(month - 1 + k)` normalises. -/
def targetMonth (dt : CalDate) (k : ℕ) : ℕ := targetMonthIdx dt k % 12 + 1

/-- Function `addMonths` from `01.utils.js`: `setMonth(month + k)`, then, when the day
changed (the base day does not exist in the target month), `setDate(0)`. -/
def addMonths (dt : CalDate) (k : ℕ) : CalDate :=
  let y := targetYear dt k
  let m := targetMonth dt k
  let rolled := rollDay y m dt.day
  if rolled.day ≠ dt.day then setDateZero rolled else rolled

/-- Reads a `YYYY-MM-DD` string (the shape enforced by the source's date
regex) into a `CalDate`. -/
def parseIsoDate (s : String) : Option CalDate :=
  match s.data with
  | [y1, y2, y3, y4, s1, m1, m2, s2, d1, d2] =>
    if y1.isDigit && y2.isDigit && y3.isDigit && y4.isDigit &&
        s1 = '-' && s2 = '-' && m1.isDigit && m2.isDigit &&
        d1.isDigit && d2.isDigit then
      some ⟨(digitsToNat [y1, y2, y3, y4] : ℤ),
            digitsToNat [m1, m2], digitsToNat [d1, d2]⟩
    else none
  | _ => none

/-- Rendering a date as year, month and day joined by dashes with two-digit padding of month and day. -/
def formatIsoDate (dt : CalDate) : String :=
  toString dt.year ++ "-" ++ pad2 dt.month ++ "-" ++ pad2 dt.day

/-- Function `calculateInstallmentDate` from the transactions module: parse the base
date, add `k` months with the end-of-month fix, and reformat. -/
def calculateInstallmentDate (baseDate : String) (k : ℕ) : String :=
  match parseIsoDate baseDate with
  | some d => formatIsoDate (addMonths d k)
  | none => "NaN-NaN-NaN"

/-- True iff the string has the `\d{4}-\d{2}-\d{2}` shape of the source's
date regex. -/
def isoDateShape (s : String) : Bool := (parseIsoDate s).isSome

/-- Platform `new Date(s)` validity for a `YYYY-MM-DD` string: the ISO parser rejects
out-of-range month or day components. -/
def isoDateValid (s : String) : Bool :=
  match parseIsoDate s with
  | some d =>
    decide (1 ≤ d.month) && decide (d.month ≤ 12) &&
    decide (1 ≤ d.day) && decide (d.day ≤ daysInMonth d.year d.month)
  | none => false

/-! ### Transactions sheet model (`transactions` module, `09.setup.js`) -/

/-- A data row of the `Categories` sheet: `row[1]` is the kind
(`debit`/`credit`), `row[2]` the name, `row[3]` the active flag. -/
structure Category where
  kind : String
  name : String
  active : Bool
deriving Repr, DecidableEq, Inhabited

/-- A data row of the `Transactions` sheet, including the statement-import
columns ensured by `ensureTransactionsImportSchema_`. -/
structure TxRow where
  id : ℤ := 0
  date : String := ""
  type : String := ""
  category : String := ""
  description : String := ""
  amount : ℚ := 0
  createdAt : String := ""
  updatedAt : String := ""
  attachmentId : String := ""
  paymentMethod : String := "Outros"
  installments : ℤ := 1
  installmentNumber : ℤ := 1
  parentTransactionId : String := ""
  importBatchId : String := ""
  importHash : String := ""
  importSource : String := ""
  importAccount : String := ""
deriving Repr, DecidableEq, Inhabited

/-- The `transactionData` argument of the transaction endpoints.  Optional
fields model `undefined`; a numeric string for `amount` is modelled by its
parsed value. -/
structure TxData where
  date : String := ""
  type : String := ""
  category : String := ""
  description : String := ""
  amount : Option ℚ := none
  installments : Option ℤ := none
  attachmentId : Option String := none
  paymentMethod : Option String := none
deriving Repr, DecidableEq, Inhabited

/-- Result of `validateTransactionData`. -/
structure Validation where
  valid : Bool
  message : String
deriving Repr, DecidableEq, Inhabited

/-- Function `validateCategory` from the transactions module: the category must exist
in the `Categories` sheet with the same kind and be active. -/
def validateCategory (cats : List Category) (categoryName ty : String) : Bool :=
  cats.any fun c => c.name = categoryName && c.kind = ty && c.active

/-- Function `validateTransactionData` from the transactions module. -/
def validateTransactionData (cats : List Category) (d : TxData) : Validation :=
  if d.date = "" then ⟨false, "Data é obrigatória"⟩
  else if ¬ isoDateShape d.date then
    ⟨false, "Data deve estar no formato YYYY-MM-DD"⟩
  else if ¬ isoDateValid d.date then ⟨false, "Data inválida"⟩
  else if d.type ≠ "debit" ∧ d.type ≠ "credit" then
    ⟨false, "Tipo deve ser \x22debit\x22 ou \x22credit\x22"⟩
  else if (jsTrim d.category).length = 0 then ⟨false, "Categoria é obrigatória"⟩
  else if ¬ validateCategory cats d.category d.type then
    ⟨false, "Categoria não encontrada ou inativa"⟩
  else if (jsTrim d.description).length = 0 then ⟨false, "Descrição é obrigatória"⟩
  else if 500 < (jsTrim d.description).length then
    ⟨false, "Descrição deve ter no máximo 500 caracteres"⟩
  else
    match d.amount with
    | none => ⟨false, "Valor é obrigatório"⟩
    | some a =>
      if a ≤ 0 then ⟨false, "Valor deve ser maior que zero"⟩
      else if 1000000000 < a then ⟨false, "Valor excede limite máximo"⟩
      else
        match d.installments with
        | none => ⟨true, "OK"⟩
        | some n =>
          if n < 1 then ⟨false, "Número de parcelas deve ser no mínimo 1"⟩
          else if 60 < n then
            ⟨false, "Número de parcelas não pode exceder 60"⟩
          else ⟨true, "OK"⟩

/-- Output of `sanitizeTransactionData`. -/
structure SanitizedTx where
  date : String
  type : String
  category : String
  description : String
  amount : ℚ
deriving Repr, DecidableEq, Inhabited

/-- Function `sanitizeTransactionData` from the transactions module. -/
def sanitizeTransactionData (d : TxData) : SanitizedTx :=
  { date := jsTrim d.date
    type := jsToLower (jsTrim d.type)
    category := jsTrim d.category
    description := (jsTrim d.description).take 500
    amount := d.amount.getD 0 }

/-- Modelled from the spec: `getDataRowCount` is one of the thin spreadsheet
wrappers ("rows in a spreadsheet, scanned linearly") whose definition is not
among the provided sources; it returns the number of data rows of a sheet. -/
def getDataRowCount (rows : List TxRow) : ℕ := rows.length

/-- Function `getNextId` from `09.setup.js`: the id of the last data row plus one, or
`1` for an empty sheet. -/
def getNextId (rows : List TxRow) : ℤ :=
  match rows.getLast? with
  | none => 1
  | some r => r.id + 1

/-- The row-building loop of `createInstallmentTransactions`: `n` rows whose
amounts split `sanitized.amount` exactly in integer cents, whose dates advance
month by month and whose descriptions carry the `(i/n)` suffix.  All rows share
the parent id generated once before the loop, and every call of `getNextId`
happens before the batch insert, so all rows carry the same id. -/
def buildInstallmentRows (s : SanitizedTx) (n : ℕ) (rowId : ℤ)
    (attachmentId : String) (paymentMethod : String)
    (parentId : String) (now : String) : List TxRow :=
  let totalCents := jsRound (s.amount * 100)
  let instCents := totalCents.fdiv n
  let lastCents := totalCents - instCents * (n - 1)
  (List.range n).map fun j =>
    let i := j + 1
    { id := rowId
      date := calculateInstallmentDate s.date j
      type := s.type
      category := s.category
      description := s.description ++ " (" ++ toString i ++ "/" ++ toString n ++ ")"
      amount := (if i = n then (lastCents : ℚ) else (instCents : ℚ)) / 100
      createdAt := now
      updatedAt := now
      attachmentId := attachmentId
      paymentMethod := paymentMethod
      installments := (n : ℤ)
      installmentNumber := (i : ℤ)
      parentTransactionId := parentId }

/-! ### Authentication (`04.auth.js`) -/

/-- Result record of `isAuthenticated`. -/
structure AuthResult where
  authenticated : Bool
  message : String
deriving Repr, DecidableEq, Inhabited

/-- Function `constantTimeCompare` from `04.auth.js`: equal lengths, then an OR-fold of
the XORs of the code units. -/
def constantTimeCompare (a b : String) : Bool :=
  if a.length ≠ b.length then false
  else
    ((a.data.zip b.data).foldl
      (fun acc p => acc ||| (p.1.toNat ^^^ p.2.toNat)) 0) = 0

/-- Function `isAuthenticated` from `04.auth.js`.  `storedToken` is the cached session
token (`none` models a cache miss; the falsiness test also rejects an empty
cached string). -/
def isAuthenticated (token : String) (storedToken : Option String) : AuthResult :=
  if token = "" then ⟨false, "Token não fornecido"⟩
  else
    match storedToken with
    | none => ⟨false, "Sessão expirada"⟩
    | some st =>
      if st = "" then ⟨false, "Sessão expirada"⟩
      else if constantTimeCompare token st then ⟨true, "Usuário autenticado"⟩
      else ⟨false, "Token inválido"⟩

/-- Function `validateSession` from `04.auth.js`. -/
def validateSession (token : String) (storedToken : Option String) : Bool :=
  (isAuthenticated token storedToken).authenticated

/-! ### Investments (`investments` module) -/

/-- An investment transaction row as `rowToInvestmentTx_` exposes it; a
missing quantity/price/amount cell coerces to `0` through `Number(x || 0)` in
`getPortfolio`. -/
structure InvTx where
  id : ℤ := 0
  date : String := ""
  investmentId : ℤ := 0
  type : String := ""
  quantity : ℚ := 0
  price : ℚ := 0
  amount : ℚ := 0
deriving Repr, DecidableEq, Inhabited

/-- The per-asset accumulator state of `getPortfolio`. -/
structure PosState where
  quantity : ℚ := 0
  avgCost : ℚ := 0
  realizedPnL : ℚ := 0
  dividends : ℚ := 0
  fees : ℚ := 0
deriving Repr, DecidableEq, Inhabited

/-- One iteration of the `getPortfolio` transaction loop on one asset state. -/
def portfolioStep (s : PosState) (tx : InvTx) : PosState :=
  let ty := jsToLower tx.type
  if ty = "buy" then
    let q := tx.quantity
    let p := tx.price
    let newQty := s.quantity + q
    let newCost := s.avgCost * s.quantity + q * p
    { s with quantity := newQty
             avgCost := if 0 < newQty then newCost / newQty else 0 }
  else if ty = "sell" then
    let q := tx.quantity
    let p := tx.price
    let sellQty := min q s.quantity
    let newQty := max 0 (s.quantity - sellQty)
    { s with realizedPnL := s.realizedPnL + (p - s.avgCost) * sellQty
             quantity := newQty
             avgCost := if newQty = 0 then 0 else s.avgCost }
  else if ty = "dividend" then { s with dividends := s.dividends + tx.amount }
  else if ty = "fee" then { s with fees := s.fees + tx.amount }
  else s

/-- The sort `getPortfolio` applies before the loop: by date string, ties
broken by numeric id. -/
def sortInvTxs (txs : List InvTx) : List InvTx :=
  txs.mergeSort fun a b =>
    jsStrLt a.date b.date || (a.date = b.date && a.id ≤ b.id)

/-- The `getPortfolio` loop over the whole transaction list: each transaction
updates the state of its asset; transactions of unknown assets are skipped
(`if (!s) continue`). -/
def portfolioLoop (states : List (ℤ × PosState)) (txs : List InvTx) :
    List (ℤ × PosState) :=
  txs.foldl
    (fun sts tx =>
      sts.map fun p => if p.1 = tx.investmentId then (p.1, portfolioStep p.2 tx) else p)
    states

/-- Final state of one asset in `getPortfolio`: the sorted list, restricted to
the asset, folded through the accumulator from the all-zero initial state. -/
def getPortfolioPosition (txs : List InvTx) (aid : ℤ) : PosState :=
  ((sortInvTxs txs).filter fun t => t.investmentId = aid).foldl portfolioStep {}

/-- The validation `addInvestmentTransaction` applies before recording a row:
`buy`/`sell` need a positive quantity and a non-negative price;
`dividend`/`fee` need a positive amount.  `none` models an empty cell (which
fails the numeric comparisons just as `'' <= 0` does). -/
def addInvestmentTxValid (date : String) (investmentId : ℤ) (ty : String)
    (quantity price amount : Option ℚ) : Bool :=
  date ≠ "" && investmentId ≠ 0 &&
  (ty = "buy" || ty = "sell" || ty = "dividend" || ty = "fee") &&
  (!(ty = "buy" || ty = "sell") ||
    (quantity.elim false fun q => 0 < q) && (price.elim false fun p => 0 ≤ p)) &&
  (!(ty = "dividend" || ty = "fee") || amount.elim false fun a => 0 < a)

/-! ### Reports (`reports` module `getReportByPeriod`, via `queryTransactions`) -/

/-- The fields of a mapped transaction object that `getReportByPeriod`
reads. -/
structure RTx where
  date : String := ""
  type : String := ""
  category : String := ""
  amount : ℚ := 0
deriving Repr, DecidableEq, Inhabited

/-- The date filters of `queryTransactions`, applied only when the bound is a
non-empty (truthy) string. -/
def queryDateFilter (startDate endDate : String) (txs : List RTx) : List RTx :=
  let afterStart := if startDate = "" then txs
    else txs.filter fun t => jsStrLe startDate t.date
  if endDate = "" then afterStart
  else afterStart.filter fun t => jsStrLe t.date endDate

/-- The final sort of `queryTransactions` (date descending). -/
def sortByDateDesc (txs : List RTx) : List RTx :=
  txs.mergeSort fun a b => !jsStrLt a.date b.date

/-- The transaction list `getReportByPeriod` receives from
`queryTransactions` for a date range. -/
def queryByPeriod (startDate endDate : String) (txs : List RTx) : List RTx :=
  sortByDateDesc (queryDateFilter startDate endDate txs)

/-- One entry of the `byCategory` object. -/
structure CatEntry where
  category : String := ""
  type : String := ""
  total : ℚ := 0
  count : ℕ := 0
deriving Repr, DecidableEq, Inhabited

/-- Insert one transaction into the `byCategory` accumulator: update the
existing entry of its category in place, or append a fresh entry (JavaScript
objects keep string keys in insertion order). -/
def catUpsert (acc : List CatEntry) (t : RTx) : List CatEntry :=
  if acc.any fun e => e.category = t.category then
    acc.map fun e =>
      if e.category = t.category then
        { e with total := e.total + t.amount, count := e.count + 1 }
      else e
  else acc ++ [{ category := t.category, type := t.type,
                 total := t.amount, count := 1 }]

/-- The `byCategory` grouping loop of `getReportByPeriod`. -/
def groupByCategory (txs : List RTx) : List CatEntry :=
  txs.foldl catUpsert []

/-- Total amount of one category inside a transaction list (the value the
`byCategory` entry of that category must hold). -/
def catTotal (l : List RTx) (c : String) : ℚ :=
  ((l.filter fun t => t.category = c).map fun t => t.amount).sum

/-- Number of transactions of one category inside a transaction list. -/
def catCount (l : List RTx) (c : String) : ℕ :=
  (l.filter fun t => t.category = c).length

/-- The `summary` record of `getReportByPeriod`. -/
structure ReportSummary where
  totalCredits : ℚ := 0
  totalDebits : ℚ := 0
  balance : ℚ := 0
  transactionCount : ℕ := 0
deriving Repr, DecidableEq, Inhabited

/-- The report data of `getReportByPeriod`. -/
structure ReportData where
  summary : ReportSummary
  byCategory : List CatEntry
deriving Repr, DecidableEq, Inhabited

/-- Function `getReportByPeriod`'s aggregation over the in-range transactions: credit
and debit accumulation loops, the balance, the count, and the category
grouping sorted by total descending (`sort((a, b) => b.total - a.total)`). -/
def getReportByPeriod (startDate endDate : String) (txs : List RTx) : ReportData :=
  let ts := queryByPeriod startDate endDate txs
  let totalCredits := ts.foldl
    (fun acc t => if t.type = "credit" then acc + t.amount else acc) 0
  let totalDebits := ts.foldl
    (fun acc t => if t.type = "debit" then acc + t.amount else acc) 0
  { summary :=
      { totalCredits := totalCredits
        totalDebits := totalDebits
        balance := totalCredits - totalDebits
        transactionCount := ts.length }
    byCategory := (groupByCategory ts).mergeSort fun a b => b.total ≤ a.total }

/-! ### Statement import (`statement import` module) -/

/-- The `parseFloat` call of `statementImportParseAmount_`.  After the cleaning
regex and the comma/dot rewriting the string only holds digits, `.`, `-`,
`(`, `)`, so the relevant grammar is an optional sign followed by a decimal
literal prefix; anything else yields `NaN` (`none`). -/
def jsParseFloat (l : List Char) : Option ℚ :=
  let (neg, rest) :=
    match l with
    | '-' :: t => (true, t)
    | '+' :: t => (false, t)
    | _ => (false, l)
  let intDigits := rest.takeWhile Char.isDigit
  let rest2 := rest.drop intDigits.length
  let fracDigits :=
    match rest2 with
    | '.' :: t => t.takeWhile Char.isDigit
    | _ => []
  if intDigits = [] ∧ fracDigits = [] then none
  else
    let mag : ℚ :=
      (digitsToNat intDigits : ℚ) + (digitsToNat fracDigits : ℚ) / 10 ^ fracDigits.length
    some (if neg then -mag else mag)

/-- JavaScript `String.replace` with a string pattern replaces only the first
occurrence. -/
def replaceFirstChar (l : List Char) (a b : Char) : List Char :=
  match l with
  | [] => []
  | c :: t => if c = a then b :: t else c :: replaceFirstChar t a b

/-- Function `statementImportParseAmount_`: strip currency symbols, parentheses mean
negative, Brazilian `1.234,56` and `12,34` comma handling, then `parseFloat`. -/
def statementImportParseAmount_ (value : String) : Option ℚ :=
  let raw := jsTrim value
  if raw = "" then none
  else
    let s := raw.data.filter fun c =>
      c.isDigit || c = ',' || c = '.' || c = '-' || c = '(' || c = ')'
    let paren := 2 ≤ s.length ∧ s.head? = some '(' ∧ s.getLast? = some ')'
    let negative := paren
    let s := if paren then (s.drop 1).dropLast else s
    let hasComma := s.contains ','
    let hasDot := s.contains '.'
    let s :=
      if hasComma && hasDot then
        replaceFirstChar (s.filter fun c => c ≠ '.') ',' '.'
      else if hasComma then replaceFirstChar s ',' '.'
      else s
    match jsParseFloat s with
    | none => none
    | some n => some (if negative then -|n| else n)

/-- The `DD/MM/YYYY` (or `DD-MM-YY`) branch of `statementImportParseDate_`. -/
def parseDayMonthYear (l : List Char) : Option String :=
  let dayDigits := l.takeWhile Char.isDigit
  let rest := l.drop dayDigits.length
  if dayDigits.length < 1 ∨ 2 < dayDigits.length then none
  else
    match rest with
    | s1 :: rest1 =>
      if s1 ≠ '/' ∧ s1 ≠ '-' then none
      else
        let monthDigits := rest1.takeWhile Char.isDigit
        let rest2 := rest1.drop monthDigits.length
        if monthDigits.length < 1 ∨ 2 < monthDigits.length then none
        else
          match rest2 with
          | s2 :: yearDigits =>
            if s2 ≠ '/' ∧ s2 ≠ '-' then none
            else if yearDigits.length < 2 ∨ 4 < yearDigits.length ∨
                ¬ yearDigits.all Char.isDigit then none
            else
              let y := digitsToNat yearDigits
              let year := if yearDigits.length = 2 then
                  (if 70 ≤ y then 1900 + y else 2000 + y) else y
              some (toString year ++ "-" ++ pad2 (digitsToNat monthDigits) ++
                "-" ++ pad2 (digitsToNat dayDigits))
          | [] => none
    | [] => none

/-- Function `statementImportParseDate_`.  The final `new Date(v)` fallback is the
platform's free-form date parser, passed in as `fallback`. -/
def statementImportParseDate_ (fallback : String → Option String)
    (value : String) : String :=
  let v := jsTrim value
  if v = "" then ""
  else if isoDateShape v then v
  else
    match parseDayMonthYear v.data with
    | some s => s
    | none => (fallback v).getD ""

/-- The column mapping of the statement importer; `none` models an unmapped
(`undefined`) column, negative indices (the `-1` of a failed suggestion) read
as empty. -/
structure ColMapping where
  dateCol : Option ℤ := none
  descriptionCol : Option ℤ := none
  typeCol : Option ℤ := none
  categoryCol : Option ℤ := none
  paymentMethodCol : Option ℤ := none
  amountCol : Option ℤ := none
  debitCol : Option ℤ := none
  creditCol : Option ℤ := none
deriving Repr, DecidableEq, Inhabited

/-- The `get` helper of `statementImportParseRow_`: out-of-range or missing
indices give the empty string. -/
def getCol (row : List String) (idx : Option ℤ) : String :=
  match idx with
  | none => ""
  | some i => if i < 0 ∨ (row.length : ℤ) ≤ i then "" else row.getD i.toNat ""

/-- A parsed candidate row of the importer (the record built by
`statementImportParseRow_`, also the shape `statementImportApplyOverride_`
rebuilds). -/
structure ParsedRow where
  rowNumber : ℕ := 0
  date : String := ""
  type : String := ""
  description : String := ""
  amount : ℚ := 0
  category : String := ""
  paymentMethod : String := ""
  valid : Bool := false
deriving Repr, DecidableEq, Inhabited

/-- Boolean list-prefix test. -/
def startsWithB : List Char → List Char → Bool
  | [], _ => true
  | _ :: _, [] => false
  | a :: as, b :: bs => a = b && startsWithB as bs

/-- Boolean contiguous-sublist test. -/
def isInfixB : List Char → List Char → Bool
  | pat, [] => pat.isEmpty
  | pat, c :: t => startsWithB pat (c :: t) || isInfixB pat t

/-- JavaScript `t.includes(pat)` on the lowered type cell. -/
def strIncludes (s pat : String) : Bool := isInfixB pat.data s.data

/-- The amount/type resolution of `statementImportParseRow_`: with a mapped
amount column the sign decides debit/credit; otherwise the debit and credit
columns are tried in that order. -/
def statementImportRowAmountType (row : List String) (mapping : ColMapping) :
    Option ℚ × Option String :=
  if mapping.amountCol.isSome then
    match statementImportParseAmount_ (getCol row mapping.amountCol) with
    | some parsed =>
      if parsed < 0 then (some (-parsed), some "debit")
      else (some parsed, some "credit")
    | none => (none, none)
  else
    match statementImportParseAmount_ (getCol row mapping.debitCol) with
    | some d =>
      if d ≠ 0 then (some |d|, some "debit")
      else
        match statementImportParseAmount_ (getCol row mapping.creditCol) with
        | some c => if c ≠ 0 then (some |c|, some "credit") else (none, none)
        | none => (none, none)
    | none =>
      match statementImportParseAmount_ (getCol row mapping.creditCol) with
      | some c => if c ≠ 0 then (some |c|, some "credit") else (none, none)
      | none => (none, none)

/-- The type of a parsed candidate row: the sign-derived type when the amount
columns decided it, otherwise the keyword heuristics on the type cell. -/
def statementImportRowType (row : List String) (mapping : ColMapping) :
    Option String :=
  match (statementImportRowAmountType row mapping).2 with
  | some t => some t
  | none =>
    let typeRaw := getCol row mapping.typeCol
    if typeRaw ≠ "" then
      let t := jsToLower typeRaw
      let ty1 : Option String :=
        if strIncludes t "deb" || strIncludes t "sa" || strIncludes t "desp" then
          some "debit"
        else none
      if strIncludes t "cred" || strIncludes t "ent" || strIncludes t "rece" then
        some "credit"
      else ty1
    else none

/-- Function `statementImportParseRow_`. -/
def statementImportParseRow_ (fallback : String → Option String)
    (row : List String) (rowNumber : ℕ) (mapping : ColMapping) : ParsedRow :=
  let amount := (statementImportRowAmountType row mapping).1
  let ty := statementImportRowType row mapping
  let date := statementImportParseDate_ fallback (getCol row mapping.dateCol)
  let description := jsTrim (getCol row mapping.descriptionCol)
  let issuesEmpty :=
    date ≠ "" && description ≠ "" &&
    (amount.elim false fun a => 0 < a) && ty.isSome
  { rowNumber := rowNumber
    date := date
    type := ty.getD ""
    description := description
    amount := amount.getD 0
    category := jsTrim (getCol row mapping.categoryCol)
    paymentMethod := jsTrim (getCol row mapping.paymentMethodCol)
    valid := issuesEmpty }

/-- An entry of the `overrides` map of `statementImportCommit`. -/
structure ImportOverride where
  enabled : Option Bool := none
  date : Option String := none
  type : Option String := none
  description : Option String := none
  amount : Option ℚ := none
  category : Option String := none
  paymentMethod : Option String := none
deriving Repr, DecidableEq, Inhabited

/-- Function `statementImportApplyOverride_`: apply the user's edits (a replacement
amount only when positive), default the payment method, and re-derive the
`valid` flag. -/
def statementImportApplyOverride_ (item : ParsedRow) (ov : Option ImportOverride)
    (defaultPaymentMethod : String) : ParsedRow :=
  let out := item
  let out :=
    match ov with
    | none => out
    | some o =>
      let out := { out with date := o.date.getD out.date }
      let out := { out with type := o.type.getD out.type }
      let out := { out with description := o.description.getD out.description }
      let out :=
        match o.amount with
        | some n => if 0 < n then { out with amount := n } else out
        | none => out
      let out := { out with category := (o.category.map jsTrim).getD out.category }
      { out with paymentMethod := (o.paymentMethod.map jsTrim).getD out.paymentMethod }
  let out :=
    if out.paymentMethod = "" then { out with paymentMethod := defaultPaymentMethod }
    else out
  let ok :=
    isoDateShape out.date &&
    (out.type = "debit" || out.type = "credit") &&
    jsTrim out.description ≠ "" &&
    0 < out.amount
  { out with valid := ok }

/-- Function `statementImportComputeHash_`: the pipe-joined payload handed to the
platform's SHA-256 digest (`digest` is that platform service, already as a
hex string). -/
def statementImportComputeHash_ (digest : String → String) (item : ParsedRow)
    (source account : String) : String :=
  digest (item.date ++ "|" ++ item.type ++ "|" ++ toString item.amount ++ "|" ++
    jsToLower (jsTrim item.description) ++ "|" ++
    jsToLower (jsTrim account) ++ "|" ++ jsToLower (jsTrim source))

/-- Function `statementImportGetExistingImportHashes_`: the non-empty trimmed values of
the `importHash` column. -/
def statementImportGetExistingImportHashes_ (rows : List TxRow) : List String :=
  (rows.map fun r => jsTrim r.importHash).filter fun s => s ≠ ""

/-- The fixed context of one `statementImportCommit` call. -/
structure CommitCtx where
  importBatchId : String := ""
  importSource : String := ""
  importAccount : String := ""
  defaultDebitCategory : String := ""
  defaultCreditCategory : String := ""
  defaultPaymentMethod : String := "Outros"
  now : String := ""
deriving Repr, DecidableEq, Inhabited

/-- The loop state of `statementImportCommit`. -/
structure CommitAcc where
  nextId : ℤ := 1
  seen : List String := []
  rows : List TxRow := []
  skippedInvalid : ℕ := 0
  skippedDuplicates : ℕ := 0
deriving Repr, DecidableEq, Inhabited

/-- The transaction row `statementImportCommit` appends for one accepted
candidate. -/
def buildImportRow (id : ℤ) (r : ParsedRow) (ctx : CommitCtx)
    (importHash : String) : TxRow :=
  { id := id
    date := r.date
    type := r.type
    category := r.category
    description := r.description
    amount := r.amount
    createdAt := ctx.now
    updatedAt := ctx.now
    attachmentId := ""
    paymentMethod := if r.paymentMethod ≠ "" then r.paymentMethod
      else ctx.defaultPaymentMethod
    installments := 1
    installmentNumber := 1
    parentTransactionId := ""
    importBatchId := ctx.importBatchId
    importHash := importHash
    importSource := ctx.importSource
    importAccount := ctx.importAccount }

/-- One iteration of the `statementImportCommit` item loop: honour a
disabling override, re-validate, resolve the category through the defaults and
`validateCategory`, then dedup against the sheet and the batch. -/
def commitStep (digest : String → String) (cats : List Category)
    (existing : List String) (ctx : CommitCtx)
    (overrides : ℕ → Option ImportOverride) (acc : CommitAcc)
    (item : ParsedRow) : CommitAcc :=
  let ov := overrides item.rowNumber
  let enabled := (ov.bind fun o => o.enabled).getD true
  if ¬ enabled then acc
  else
    let resolved := statementImportApplyOverride_ item ov ctx.defaultPaymentMethod
    if ¬ resolved.valid then { acc with skippedInvalid := acc.skippedInvalid + 1 }
    else
      let resolved :=
        if resolved.category = "" then
          { resolved with category :=
              if resolved.type = "debit" then ctx.defaultDebitCategory
              else ctx.defaultCreditCategory }
        else resolved
      if resolved.category = "" then
        { acc with skippedInvalid := acc.skippedInvalid + 1 }
      else if ¬ validateCategory cats resolved.category resolved.type then
        { acc with skippedInvalid := acc.skippedInvalid + 1 }
      else
        let importHash :=
          statementImportComputeHash_ digest resolved ctx.importSource ctx.importAccount
        if importHash ∈ acc.seen ∨ importHash ∈ existing then
          { acc with skippedDuplicates := acc.skippedDuplicates + 1 }
        else
          { acc with
              seen := importHash :: acc.seen
              nextId := acc.nextId + 1
              rows := acc.rows ++ [buildImportRow acc.nextId resolved ctx importHash] }

/-- The whole `statementImportCommit` item loop from the initial loop state. -/
def commitLoop (digest : String → String) (cats : List Category)
    (existing : List String) (ctx : CommitCtx)
    (overrides : ℕ → Option ImportOverride) (firstId : ℤ)
    (items : List ParsedRow) : CommitAcc :=
  items.foldl (commitStep digest cats existing ctx overrides)
    { nextId := firstId, seen := [], rows := [],
      skippedInvalid := 0, skippedDuplicates := 0 }

/-! ### Application state and the token-guarded endpoints -/

/-- A data row of the `Investments` assets sheet. -/
structure InvAssetRow where
  id : ℤ := 0
  symbol : String := ""
  name : String := ""
  assetType : String := ""
  broker : String := ""
  currency : String := "BRL"
  latestPrice : ℚ := 0
  lastPriceAt : String := ""
  isActive : Bool := true
  notes : String := ""
  createdAt : String := ""
  updatedAt : String := ""
deriving Repr, DecidableEq, Inhabited

/-- The `investment` argument of `upsertInvestment` (optional fields model
`undefined`). -/
structure InvData where
  id : Option ℤ := none
  symbol : Option String := none
  name : Option String := none
  assetType : Option String := none
  broker : Option String := none
  currency : Option String := none
  latestPrice : Option ℚ := none
  isActive : Option Bool := none
  notes : Option String := none
deriving Repr, DecidableEq, Inhabited

/-- The stored state the endpoints read and write: the cached session token
and the sheets. -/
structure AppState where
  sessionToken : Option String := none
  transactions : List TxRow := []
  categories : List Category := []
  invAssets : List InvAssetRow := []
  invTxs : List InvTx := []
deriving Repr, DecidableEq, Inhabited

/-- The `success`/`message` envelope every endpoint returns. -/
structure OpResult where
  success : Bool
  message : String
deriving Repr, DecidableEq, Inhabited

/-- The refusal every guarded endpoint returns on a bad token. -/
def invalidSession : OpResult := ⟨false, "Sessão inválida ou expirada"⟩

/-- Function `findRowById` on the `Transactions` sheet: first data row whose first
column equals the id, with its index. -/
def findRowById (rows : List TxRow) (id : ℤ) : Option (ℕ × TxRow) :=
  match rows.findIdx? (fun r => r.id = id) with
  | none => none
  | some i => (rows.getD i default) |> fun r => some (i, r)

/-- Endpoint `createInstallmentTransactions`: session guard, re-validation, the
2–60 installment bounds, the 50000-row cap, then the batch append of
`buildInstallmentRows`.  `parentId` is the platform UUID generated for the
batch and `now` the clock reading. -/
def createInstallmentTransactions (token : String) (td : TxData)
    (parentId now : String) (st : AppState) : OpResult × AppState :=
  if ¬ validateSession token st.sessionToken then (invalidSession, st)
  else
    let validation := validateTransactionData st.categories td
    if ¬ validation.valid then (⟨false, validation.message⟩, st)
    else
      let s := sanitizeTransactionData td
      match td.installments with
      | none => (⟨false, "Número de parcelas deve ser um número inteiro"⟩, st)
      | some n =>
        if n < 2 ∨ 60 < n then
          (⟨false, "Número de parcelas deve estar entre 2 e 60"⟩, st)
        else
          let currentCount := getDataRowCount st.transactions
          if 50000 < (currentCount : ℤ) + n then
            (⟨false, "Limite máximo de 50000 transações atingido. Restam " ++
              toString (max (50000 - (currentCount : ℤ)) 0) ++
              " vagas disponíveis."⟩, st)
          else
            let rows := buildInstallmentRows s n.toNat (getNextId st.transactions)
              (td.attachmentId.getD "") (td.paymentMethod.getD "Crédito parcelado")
              parentId now
            (⟨true, toString n ++ " parcelas criadas com sucesso"⟩,
              { st with transactions := st.transactions ++ rows })

/-- Endpoint `createTransaction`: session guard, the 50000-row cap, validation,
delegation to the installment path when `installments > 1`, otherwise a
single-row append. -/
def createTransaction (token : String) (td : TxData) (parentId now : String)
    (st : AppState) : OpResult × AppState :=
  if ¬ validateSession token st.sessionToken then (invalidSession, st)
  else if 50000 ≤ getDataRowCount st.transactions then
    (⟨false, "Limite máximo de 50000 transações atingido. Exclua transações antigas antes de criar novas."⟩, st)
  else
    let validation := validateTransactionData st.categories td
    if ¬ validation.valid then (⟨false, validation.message⟩, st)
    else
      let s := sanitizeTransactionData td
      let id := getNextId st.transactions
      if (td.installments.getD 0) ≠ 0 ∧ 1 < td.installments.getD 0 then
        createInstallmentTransactions token td parentId now st
      else
        let row : TxRow :=
          { id := id
            date := s.date
            type := s.type
            category := s.category
            description := s.description
            amount := s.amount
            createdAt := now
            updatedAt := now
            attachmentId := td.attachmentId.getD ""
            paymentMethod := td.paymentMethod.getD "Outros"
            installments := 1
            installmentNumber := 1
            parentTransactionId := "" }
        (⟨true, "Transação criada com sucesso"⟩,
          { st with transactions := st.transactions ++ [row] })

/-- Endpoint `updateTransaction`: session guard, id check, lookup, validation, then an
in-place row update that preserves `createdAt` and the installment columns. -/
def updateTransaction (token : String) (id : ℤ) (td : TxData) (now : String)
    (st : AppState) : OpResult × AppState :=
  if ¬ validateSession token st.sessionToken then (invalidSession, st)
  else if id = 0 then (⟨false, "ID inválido"⟩, st)
  else
    match findRowById st.transactions id with
    | none => (⟨false, "Transação não encontrada"⟩, st)
    | some (idx, old) =>
      let validation := validateTransactionData st.categories td
      if ¬ validation.valid then (⟨false, validation.message⟩, st)
      else
        let s := sanitizeTransactionData td
        let row : TxRow :=
          { id := id
            date := s.date
            type := s.type
            category := s.category
            description := s.description
            amount := s.amount
            createdAt := old.createdAt
            updatedAt := now
            attachmentId := (td.attachmentId.getD old.attachmentId)
            paymentMethod := (td.paymentMethod.getD old.paymentMethod)
            installments := old.installments
            installmentNumber := old.installmentNumber
            parentTransactionId := old.parentTransactionId }
        (⟨true, "Transação atualizada com sucesso"⟩,
          { st with transactions := st.transactions.set idx row })

/-- Endpoint `deleteTransaction`: session guard, id check, lookup, then row removal. -/
def deleteTransaction (token : String) (id : ℤ) (st : AppState) :
    OpResult × AppState :=
  if ¬ validateSession token st.sessionToken then (invalidSession, st)
  else if id = 0 then (⟨false, "ID inválido"⟩, st)
  else
    match findRowById st.transactions id with
    | none => (⟨false, "Transação não encontrada"⟩, st)
    | some (idx, _) =>
      (⟨true, "Transação deletada com sucesso"⟩,
        { st with transactions := st.transactions.eraseIdx idx })

/-- JavaScript `a || b` for strings (first operand when truthy). -/
def strOr (a b : String) : String := if a = "" then b else a

/-- Function `findRowById` on the assets sheet. -/
def findInvRowById (rows : List InvAssetRow) (id : ℤ) : Option (ℕ × InvAssetRow) :=
  match rows.findIdx? (fun r => r.id = id) with
  | none => none
  | some i => some (i, rows.getD i default)

/-- Function `getNextId` on the assets sheet. -/
def getNextInvId (rows : List InvAssetRow) : ℤ :=
  match rows.getLast? with
  | none => 1
  | some r => r.id + 1

/-- Endpoint `upsertInvestment`: session guard, argument normalisation with defaults,
the symbol-or-name requirement, then either an in-place update of the found
row or the append of a fresh one. -/
def upsertInvestment (token : String) (inv : Option InvData) (now : String)
    (st : AppState) : OpResult × AppState :=
  if ¬ validateSession token st.sessionToken then (invalidSession, st)
  else
    match inv with
    | none => (⟨false, "Dados inválidos"⟩, st)
    | some d =>
      let symbol := jsToUpper (jsTrim (d.symbol.getD ""))
      let name := jsTrim (d.name.getD "")
      let assetType := jsTrim (strOr (d.assetType.getD "") "Ação")
      let broker := jsTrim (d.broker.getD "")
      let currency := jsToUpper (jsTrim (strOr (d.currency.getD "") "BRL"))
      let latestPrice := d.latestPrice.getD 0
      let notes := jsTrim (d.notes.getD "")
      if symbol = "" ∧ name = "" then
        (⟨false, "Informe pelo menos o ticker ou o nome do ativo"⟩, st)
      else
        match d.id with
        | some id =>
          if id = 0 then
            let row : InvAssetRow :=
              { id := getNextInvId st.invAssets, symbol := symbol, name := name
                assetType := assetType, broker := broker, currency := currency
                latestPrice := latestPrice, lastPriceAt := now, isActive := true
                notes := notes, createdAt := now, updatedAt := now }
            (⟨true, "Ativo criado"⟩, { st with invAssets := st.invAssets ++ [row] })
          else
            match findInvRowById st.invAssets id with
            | none => (⟨false, "Ativo não encontrado"⟩, st)
            | some (idx, old) =>
              let row : InvAssetRow :=
                { id := id
                  symbol := strOr symbol old.symbol
                  name := strOr name old.name
                  assetType := strOr assetType "Ação"
                  broker := broker
                  currency := strOr currency "BRL"
                  latestPrice := latestPrice
                  lastPriceAt := now
                  isActive := d.isActive ≠ some false
                  notes := notes
                  createdAt := strOr old.createdAt now
                  updatedAt := now }
              (⟨true, "Ativo atualizado"⟩,
                { st with invAssets := st.invAssets.set idx row })
        | none =>
          let row : InvAssetRow :=
            { id := getNextInvId st.invAssets, symbol := symbol, name := name
              assetType := assetType, broker := broker, currency := currency
              latestPrice := latestPrice, lastPriceAt := now, isActive := true
              notes := notes, createdAt := now, updatedAt := now }
          (⟨true, "Ativo criado"⟩, { st with invAssets := st.invAssets ++ [row] })

/-- Endpoint `statementImportCommit` over an already-parsed candidate list: session
guard, the row limit, the existing-hash snapshot, the item loop, and the batch
append.  `digest` is the platform SHA-256 service. -/
def statementImportCommit (token : String) (items : List ParsedRow)
    (overrides : ℕ → Option ImportOverride) (ctx : CommitCtx)
    (digest : String → String) (st : AppState) : OpResult × AppState :=
  if ¬ validateSession token st.sessionToken then (invalidSession, st)
  else if 5000 < items.length then
    (⟨false, "Muitas linhas (" ++ toString items.length ++ "). Limite: 5000."⟩, st)
  else
    let existing := statementImportGetExistingImportHashes_ st.transactions
    let acc := commitLoop digest st.categories existing ctx overrides
      (getNextId st.transactions) items
    if acc.rows.length = 0 then
      (⟨false, "Nenhuma linha válida para importar (verifique categorias, duplicados e formato do CSV)."⟩, st)
    else
      (⟨true, "Importação concluída"⟩,
        { st with transactions := st.transactions ++ acc.rows })

/-- The states reachable from an empty `Transactions` sheet through the two
transaction-creating endpoints. -/
inductive ReachableTx : AppState → Prop
  | init (st : AppState) (h : st.transactions = []) : ReachableTx st
  | create (st : AppState) (h : ReachableTx st) (token : String) (td : TxData)
      (parentId now : String) :
      ReachableTx (createTransaction token td parentId now st).2
  | installments (st : AppState) (h : ReachableTx st) (token : String)
      (td : TxData) (parentId now : String) :
      ReachableTx (createInstallmentTransactions token td parentId now st).2

/-! ## Theorems -/

/-- Indexing the mapped range underlying an installment batch. -/
theorem getD_map_range {α : Type} (f : ℕ → α) (n j : ℕ) (hj : j < n) (d : α) :
    ((List.range n).map f).getD j d = f j := by
  rw [List.getD_eq_getElem?_getD, List.getElem?_map, List.getElem?_range hj]
  rfl

/-- Every month length is at least 28 days. -/
theorem daysInMonth_ge (y : ℤ) (m : ℕ) : 28 ≤ daysInMonth y m := by
  unfold daysInMonth
  split
  · split <;> omega
  · split <;> omega

/-- The target month is always in range 1–12. -/
theorem targetMonth_mem (dt : CalDate) (k : ℕ) :
    1 ≤ targetMonth dt k ∧ targetMonth dt k ≤ 12 := by
  unfold targetMonth
  omega

/-- The `setMonth`/`setDate(0)` dance of `addMonths` computes the clamp of the
base day to the length of the target month. -/
theorem addMonths_clamp (dt : CalDate) (k : ℕ) :
    addMonths dt k =
      ⟨targetYear dt k, targetMonth dt k,
       min dt.day (daysInMonth (targetYear dt k) (targetMonth dt k))⟩ := by
  set y := targetYear dt k with hy
  set m := targetMonth dt k with hm
  have hdim : 28 ≤ daysInMonth y m := daysInMonth_ge y m
  have hm12 : m ≤ 12 := (targetMonth_mem dt k).2
  have hm1 : 1 ≤ m := (targetMonth_mem dt k).1
  unfold addMonths rollDay
  dsimp only
  by_cases hle : dt.day ≤ daysInMonth y m
  · rw [if_pos hle]
    have hcond : ¬ ((⟨y, m, dt.day⟩ : CalDate).day ≠ dt.day) := by simp
    rw [if_neg hcond, min_eq_left hle]
  · rw [if_neg hle]
    have hlt : daysInMonth y m < dt.day := by omega
    rw [min_eq_right (le_of_lt hlt)]
    by_cases h12 : m = 12
    · rw [if_pos h12]
      have hcond : (⟨y + 1, 1, dt.day - daysInMonth y m⟩ : CalDate).day ≠ dt.day := by
        simp only []
        omega
      rw [if_pos hcond]
      unfold setDateZero
      rw [if_pos rfl]
      have h31 : daysInMonth y m = 31 := by
        unfold daysInMonth
        rw [h12]
        norm_num
      simp only [h12] at h31 ⊢
      rw [h31]
      congr 1
      omega
    · rw [if_neg h12]
      have hcond : (⟨y, m + 1, dt.day - daysInMonth y m⟩ : CalDate).day ≠ dt.day := by
        simp only []
        omega
      rw [if_pos hcond]
      unfold setDateZero
      have hne1 : m + 1 ≠ 1 := by omega
      rw [if_neg hne1]
      congr 1

/-- Summing the per-installment cent amounts recovers the total exactly. -/
theorem sum_installment_amounts (C : ℤ) (n : ℕ) (h1 : 1 ≤ n) :
    ((List.range n).map fun j =>
      (if j + 1 = n then ((C - C.fdiv n * ((n : ℤ) - 1) : ℤ) : ℚ)
       else ((C.fdiv n : ℤ) : ℚ)) / 100).sum = (C : ℚ) / 100 := by
  set q := C.fdiv n with hq
  have hrange : List.range n = List.range (n - 1) ++ [n - 1] := by
    conv_lhs => rw [show n = (n - 1) + 1 by omega, List.range_succ]
  rw [hrange, List.map_append, List.sum_append]
  have hconst : (List.range (n - 1)).map (fun j =>
      (if j + 1 = n then ((C - q * ((n : ℤ) - 1) : ℤ) : ℚ)
       else ((q : ℤ) : ℚ)) / 100)
      = List.replicate (n - 1) (((q : ℤ) : ℚ) / 100) := by
    apply List.eq_replicate_iff.mpr
    refine ⟨by simp, ?_⟩
    intro b hb
    simp only [List.mem_map, List.mem_range] at hb
    obtain ⟨j, hj, hjb⟩ := hb
    have : j + 1 ≠ n := by omega
    rw [← hjb]
    simp [this]
  rw [hconst, List.sum_replicate, nsmul_eq_mul]
  have hlast : n - 1 + 1 = n := by omega
  simp only [List.map_cons, List.map_nil, List.sum_cons, List.sum_nil, hlast,
    if_pos rfl]
  have hcast : ((n - 1 : ℕ) : ℚ) = (n : ℚ) - 1 := by
    push_cast [Nat.cast_sub (by omega : 1 ≤ n)]
    ring
  rw [hcast]
  push_cast
  ring

/-- The amounts column of an installment batch as a function of the index. -/
theorem buildInstallmentRows_amounts (s : SanitizedTx) (n : ℕ) (rowId : ℤ)
    (att pm pid now : String) :
    (buildInstallmentRows s n rowId att pm pid now).map (fun r => r.amount)
      = (List.range n).map fun j =>
        (if j + 1 = n then
          ((jsRound (s.amount * 100)
            - (jsRound (s.amount * 100)).fdiv n * ((n : ℤ) - 1) : ℤ) : ℚ)
         else (((jsRound (s.amount * 100)).fdiv n : ℤ) : ℚ)) / 100 := by
  unfold buildInstallmentRows
  rw [List.map_map]
  rfl

/-- C1: splitting an amount into `N` installment rows is exact in cents: with
`C = round(100 * A)`, `createInstallmentTransactions` builds exactly `N` rows,
the first `N - 1` carrying `⌊C / N⌋ / 100` and the last carrying
`(C - (N - 1) * ⌊C / N⌋) / 100`, so the amounts sum to exactly `C / 100` with
no floating-point drift. -/
theorem installment_split_exact_in_cents
    (s : SanitizedTx) (n : ℕ) (rowId : ℤ) (att pm pid now : String)
    (hA : 0 < s.amount) (h2 : 2 ≤ n) (h60 : n ≤ 60) :
    (buildInstallmentRows s n rowId att pm pid now).length = n ∧
    (∀ j, j < n - 1 →
      ((buildInstallmentRows s n rowId att pm pid now).getD j default).amount
        = (((jsRound (s.amount * 100)).fdiv n : ℤ) : ℚ) / 100) ∧
    ((buildInstallmentRows s n rowId att pm pid now).getD (n - 1) default).amount
        = ((jsRound (s.amount * 100)
            - ((n : ℤ) - 1) * (jsRound (s.amount * 100)).fdiv n : ℤ) : ℚ) / 100 ∧
    ((buildInstallmentRows s n rowId att pm pid now).map (fun r => r.amount)).sum
        = ((jsRound (s.amount * 100) : ℤ) : ℚ) / 100 := by
  have hlen : (buildInstallmentRows s n rowId att pm pid now).length = n := by
    simp [buildInstallmentRows]
  refine ⟨hlen, ?_, ?_, ?_⟩
  · intro j hj
    unfold buildInstallmentRows
    rw [getD_map_range _ _ _ (by omega)]
    have : j + 1 ≠ n := by omega
    simp [this]
  · unfold buildInstallmentRows
    rw [getD_map_range _ _ _ (by omega)]
    have h : n - 1 + 1 = n := by omega
    simp only [h, if_pos rfl]
    push_cast
    ring
  · rw [buildInstallmentRows_amounts, sum_installment_amounts _ _ (by omega)]

/-- Witness for C1: splitting R$ 101.00 into 3 installments gives rows whose
amounts sum to exactly 101. -/
theorem installment_split_exact_in_cents_witness :
    (0 : ℚ) < 101 ∧ 2 ≤ 3 ∧ 3 ≤ 60 ∧
    ((buildInstallmentRows ⟨"2024-01-31", "debit", "Alimentação", "Compra", 101⟩
        3 1 "" "Crédito parcelado" "p1" "T").map (fun r => r.amount)).sum
      = 101 := by
  refine ⟨by norm_num, by norm_num, by norm_num, ?_⟩
  have h := (installment_split_exact_in_cents
    ⟨"2024-01-31", "debit", "Alimentação", "Compra", 101⟩ 3 1 ""
    "Crédito parcelado" "p1" "T" (by norm_num) (by norm_num) (by norm_num)).2.2.2
  rw [h]
  norm_num [jsRound]

/-- C7: installment `i` of `N` is dated `i - 1` calendar months after the base
date (day clamped to the length of the target month), carries the ` (i/N)`
description suffix, `installmentNumber = i`, `installments = N`, and the one
parent id shared by the whole batch. -/
theorem installment_rows_schedule
    (s : SanitizedTx) (n : ℕ) (rowId : ℤ) (att pm pid now : String)
    (base : CalDate) (hparse : parseIsoDate s.date = some base) (h2 : 2 ≤ n) :
    ∀ i, 1 ≤ i → i ≤ n →
      ((buildInstallmentRows s n rowId att pm pid now).getD (i - 1) default).date
        = formatIsoDate ⟨targetYear base (i - 1), targetMonth base (i - 1),
            min base.day (daysInMonth (targetYear base (i - 1))
              (targetMonth base (i - 1)))⟩ ∧
      ((buildInstallmentRows s n rowId att pm pid now).getD (i - 1) default).description
        = s.description ++ " (" ++ toString i ++ "/" ++ toString n ++ ")" ∧
      ((buildInstallmentRows s n rowId att pm pid now).getD (i - 1) default).installmentNumber
        = (i : ℤ) ∧
      ((buildInstallmentRows s n rowId att pm pid now).getD (i - 1) default).installments
        = (n : ℤ) ∧
      ((buildInstallmentRows s n rowId att pm pid now).getD (i - 1) default).parentTransactionId
        = pid := by
  intro i h1i hin
  have hi : i - 1 + 1 = i := by omega
  unfold buildInstallmentRows
  rw [getD_map_range _ _ _ (by omega : i - 1 < n)]
  dsimp only
  rw [hi]
  refine ⟨?_, rfl, rfl, rfl, rfl⟩
  unfold calculateInstallmentDate
  rw [hparse]
  dsimp only
  rw [addMonths_clamp]

/-- Witness for C7: the second of three installments of a Jan 31, 2024
transaction lands on Feb 29, 2024 (leap-year end-of-month clamp) and carries
the `(2/3)` suffix and the shared parent id. -/
theorem installment_rows_schedule_witness :
    parseIsoDate "2024-01-31" = some ⟨2024, 1, 31⟩ ∧ 2 ≤ 3 ∧
    ((buildInstallmentRows ⟨"2024-01-31", "debit", "Alimentação", "Compra", 101⟩
        3 1 "" "Crédito parcelado" "p1" "T").getD 1 default).date = "2024-02-29" ∧
    ((buildInstallmentRows ⟨"2024-01-31", "debit", "Alimentação", "Compra", 101⟩
        3 1 "" "Crédito parcelado" "p1" "T").getD 1 default).description
      = "Compra (2/3)" ∧
    ((buildInstallmentRows ⟨"2024-01-31", "debit", "Alimentação", "Compra", 101⟩
        3 1 "" "Crédito parcelado" "p1" "T").getD 1 default).parentTransactionId
      = "p1" := by
  have h := installment_rows_schedule
    ⟨"2024-01-31", "debit", "Alimentação", "Compra", 101⟩ 3 1 ""
    "Crédito parcelado" "p1" "T" ⟨2024, 1, 31⟩ (by decide) (by norm_num)
    2 (by norm_num) (by norm_num)
  refine ⟨by decide, by norm_num, h.1.trans (by decide), h.2.1.trans (by decide),
    h.2.2.2.2⟩

/-- A natural-number OR is zero exactly when both operands are. -/
theorem nat_or_eq_zero_iff (a b : ℕ) : a ||| b = 0 ↔ a = 0 ∧ b = 0 := by
  constructor
  · intro h
    constructor <;>
    · apply Nat.eq_of_testBit_eq
      intro i
      have h2 := congrArg (fun x => Nat.testBit x i) h
      simp only [Nat.testBit_or, Nat.zero_testBit, Bool.or_eq_false_iff] at h2
      simp [h2.1, h2.2]
  · rintro ⟨rfl, rfl⟩; rfl

/-- Characters with equal code units are equal. -/
theorem char_toNat_inj {a b : Char} (h : a.toNat = b.toNat) : a = b :=
  Char.ext (UInt32.ext h)

/-- The OR-of-XORs fold of `constantTimeCompare` vanishes exactly when the
accumulator is zero and every zipped pair matches. -/
theorem or_xor_fold_eq_zero (l : List (Char × Char)) :
    ∀ init : ℕ,
      (l.foldl (fun acc p => acc ||| (p.1.toNat ^^^ p.2.toNat)) init = 0
        ↔ init = 0 ∧ ∀ p ∈ l, p.1 = p.2) := by
  induction l with
  | nil => intro init; simp
  | cons hd tl ih =>
    intro init
    simp only [List.foldl_cons]
    rw [ih]
    constructor
    · rintro ⟨hor, hall⟩
      obtain ⟨hinit, hxor⟩ := (nat_or_eq_zero_iff _ _).mp hor
      refine ⟨hinit, ?_⟩
      intro p hp
      rcases List.mem_cons.mp hp with rfl | hp
      · exact char_toNat_inj (Nat.xor_eq_zero.mp hxor)
      · exact hall p hp
    · rintro ⟨rfl, hall⟩
      refine ⟨?_, fun p hp => hall p (List.mem_cons_of_mem _ hp)⟩
      have hhd : hd.1 = hd.2 := hall hd (List.mem_cons_self _ _)
      simp [hhd]

/-- Equal-length lists whose zip is pointwise equal are equal. -/
theorem eq_of_zip_eq : ∀ (l1 l2 : List Char), l1.length = l2.length →
    (∀ p ∈ l1.zip l2, p.1 = p.2) → l1 = l2 := by
  intro l1
  induction l1 with
  | nil => intro l2 hlen _; cases l2 <;> simp_all
  | cons a as ih =>
    intro l2 hlen hall
    cases l2 with
    | nil => simp at hlen
    | cons b bs =>
      have hab : a = b := hall (a, b) (by simp [List.zip_cons_cons])
      have : as = bs := by
        apply ih bs (by simpa using hlen)
        intro p hp
        exact hall p (by simp [List.zip_cons_cons, hp])
      simp [hab, this]

/-- Zipping a list with itself only produces equal pairs. -/
theorem zip_self_eq : ∀ (l : List Char), ∀ p ∈ l.zip l, p.1 = p.2 := by
  intro l
  induction l with
  | nil => simp
  | cons a as ih =>
    intro p hp
    rw [List.zip_cons_cons] at hp
    rcases List.mem_cons.mp hp with rfl | hp
    · rfl
    · exact ih p hp

/-- Function `constantTimeCompare` succeeds exactly on equal strings. -/
theorem constantTimeCompare_eq_true_iff (a b : String) :
    constantTimeCompare a b = true ↔ a = b := by
  unfold constantTimeCompare
  by_cases hlen : a.length ≠ b.length
  · rw [if_pos hlen]
    simp only [Bool.false_eq_true, false_iff]
    intro h
    exact hlen (by rw [h])
  · rw [if_neg hlen]
    push_neg at hlen
    rw [decide_eq_true_eq, or_xor_fold_eq_zero]
    constructor
    · rintro ⟨-, hall⟩
      have hdata : a.data = b.data := eq_of_zip_eq a.data b.data hlen hall
      exact congrArg String.mk hdata
    · rintro rfl
      exact ⟨rfl, zip_self_eq a.data⟩

/-- C6: `isAuthenticated` accepts exactly a non-empty token that is
character-for-character equal to a stored session token, and `validateSession`
returns exactly that boolean. -/
theorem auth_simple_token_presence_check :
    ∀ (token : String) (stored : Option String),
      ((isAuthenticated token stored).authenticated = true
        ↔ token ≠ "" ∧ stored = some token) ∧
      validateSession token stored = (isAuthenticated token stored).authenticated := by
  intro token stored
  refine ⟨?_, rfl⟩
  unfold isAuthenticated
  by_cases ht : token = ""
  · simp [ht]
  · rw [if_neg ht]
    cases stored with
    | none => simp
    | some st =>
      dsimp only
      by_cases hst : st = ""
      · subst hst
        rw [if_pos rfl]
        constructor
        · intro h; exact absurd h (by simp)
        · rintro ⟨hne, heq⟩
          injection heq with h2
          exact absurd h2.symm hne
      · rw [if_neg hst]
        by_cases hc : constantTimeCompare token st = true
        · have heq : token = st := (constantTimeCompare_eq_true_iff _ _).mp hc
          rw [if_pos hc]
          exact ⟨fun _ => ⟨ht, by rw [heq]⟩, fun _ => rfl⟩
        · rw [if_neg hc]
          constructor
          · intro h; exact absurd h (by simp)
          · rintro ⟨-, heq⟩
            injection heq with h2
            exact absurd ((constantTimeCompare_eq_true_iff token st).mpr h2.symm) hc

/-- Witness for C6: a non-empty token equal to the cached session token
authenticates, and `validateSession` returns the same boolean. -/
theorem auth_simple_token_presence_check_witness :
    (isAuthenticated "abc" (some "abc")).authenticated = true ∧
    validateSession "abc" (some "abc") = true := by
  have h := auth_simple_token_presence_check "abc" (some "abc")
  refine ⟨h.1.mpr ⟨by decide, rfl⟩, ?_⟩
  rw [h.2]
  exact h.1.mpr ⟨by decide, rfl⟩

/-- Code-unit comparison of char lists is transitive. -/
theorem jsStrLtList_trans : ∀ l1 l2 l3 : List Char,
    jsStrLtList l1 l2 = true → jsStrLtList l2 l3 = true →
    jsStrLtList l1 l3 = true := by
  intro l1
  induction l1 with
  | nil =>
    intro l2 l3 h12 h23
    cases l3 with
    | nil =>
      cases l2 with
      | nil => simpa using h12
      | cons b bs => simpa [jsStrLtList] using h23
    | cons c cs => simp [jsStrLtList]
  | cons a as ih =>
    intro l2 l3 h12 h23
    cases l2 with
    | nil => simpa [jsStrLtList] using h12
    | cons b bs =>
      cases l3 with
      | nil => simpa [jsStrLtList] using h23
      | cons c cs =>
        simp only [jsStrLtList] at h12 h23 ⊢
        by_cases hab : a.toNat < b.toNat
        · by_cases hbc : b.toNat < c.toNat
          · simp [show a.toNat < c.toNat by omega]
          · by_cases hcb : c.toNat < b.toNat
            · simp [hbc, hcb] at h23
            · simp [show a.toNat < c.toNat by omega]
        · by_cases hba : b.toNat < a.toNat
          · simp [hab, hba] at h12
          · by_cases hbc : b.toNat < c.toNat
            · simp [show a.toNat < c.toNat by omega]
            · by_cases hcb : c.toNat < b.toNat
              · simp [hbc, hcb] at h23
              · have h12x : jsStrLtList as bs = true := by simpa [hab, hba] using h12
                have h23x : jsStrLtList bs cs = true := by simpa [hbc, hcb] using h23
                have hac : ¬ a.toNat < c.toNat := by omega
                have hca : ¬ c.toNat < a.toNat := by omega
                simp [hac, hca, ih bs cs h12x h23x]

/-- Code-unit comparison of char lists is trichotomous. -/
theorem jsStrLtList_trichotomy : ∀ l1 l2 : List Char,
    jsStrLtList l1 l2 = true ∨ jsStrLtList l2 l1 = true ∨ l1 = l2 := by
  intro l1
  induction l1 with
  | nil =>
    intro l2
    cases l2 with
    | nil => right; right; rfl
    | cons b bs => left; simp [jsStrLtList]
  | cons a as ih =>
    intro l2
    cases l2 with
    | nil => right; left; simp [jsStrLtList]
    | cons b bs =>
      by_cases hab : a.toNat < b.toNat
      · left; simp [jsStrLtList, hab]
      · by_cases hba : b.toNat < a.toNat
        · right; left; simp [jsStrLtList, hba]
        · have heq : a = b := char_toNat_inj (by omega)
          rcases ih bs with h | h | h
          · left; simp [jsStrLtList, hab, hba, h]
          · right; left; simp [jsStrLtList, heq, h]
          · right; right; simp [heq, h]

/-- Relation `jsStrLt` is transitive. -/
theorem jsStrLt_trans {a b c : String} (h1 : jsStrLt a b = true)
    (h2 : jsStrLt b c = true) : jsStrLt a c = true :=
  jsStrLtList_trans a.data b.data c.data h1 h2

/-- Relation `jsStrLt` is trichotomous. -/
theorem jsStrLt_trichotomy (a b : String) :
    jsStrLt a b = true ∨ jsStrLt b a = true ∨ a = b := by
  rcases jsStrLtList_trichotomy a.data b.data with h | h | h
  · exact Or.inl h
  · exact Or.inr (Or.inl h)
  · exact Or.inr (Or.inr (congrArg String.mk h))

/-- The `(date, id)` comparator of `getPortfolio`'s sort is transitive. -/
theorem invTxLe_trans : ∀ (a b c : InvTx),
    (jsStrLt a.date b.date || (a.date = b.date && a.id ≤ b.id)) = true →
    (jsStrLt b.date c.date || (b.date = c.date && b.id ≤ c.id)) = true →
    (jsStrLt a.date c.date || (a.date = c.date && a.id ≤ c.id)) = true := by
  intro a b c h1 h2
  simp only [Bool.or_eq_true, Bool.and_eq_true, decide_eq_true_eq] at h1 h2 ⊢
  rcases h1 with h1 | ⟨h1e, h1i⟩
  · rcases h2 with h2 | ⟨h2e, h2i⟩
    · exact Or.inl (jsStrLt_trans h1 h2)
    · exact Or.inl (h2e ▸ h1)
  · rcases h2 with h2 | ⟨h2e, h2i⟩
    · exact Or.inl (h1e ▸ h2)
    · exact Or.inr ⟨h1e.trans h2e, le_trans h1i h2i⟩

/-- The `(date, id)` comparator of `getPortfolio`'s sort is total. -/
theorem invTxLe_total : ∀ (a b : InvTx),
    ((jsStrLt a.date b.date || (a.date = b.date && a.id ≤ b.id)) ||
     (jsStrLt b.date a.date || (b.date = a.date && b.id ≤ a.id))) = true := by
  intro a b
  simp only [Bool.or_eq_true, Bool.and_eq_true, decide_eq_true_eq]
  rcases jsStrLt_trichotomy a.date b.date with h | h | h
  · exact Or.inl (Or.inl h)
  · exact Or.inr (Or.inl h)
  · rcases le_total a.id b.id with hi | hi
    · exact Or.inl (Or.inr ⟨h, hi⟩)
    · exact Or.inr (Or.inr ⟨h.symm, hi⟩)

/-- C2: the `getPortfolio` accumulator is the textbook weighted-average-cost
update: a buy moves `(qty, avgCost)` to
`(qty + q, (qty * avgCost + q * p) / (qty + q))`; a sell realises
`(p - avgCost) * min q qty`, reduces the quantity by `min q qty` and resets
`avgCost` to zero only when the position empties; dividends and fees
accumulate separately; and the loop processes the transactions sorted by date
with ties broken by id. -/
theorem portfolio_weighted_average_cost :
    (∀ (s : PosState) (tx : InvTx),
      (jsToLower tx.type = "buy" → 0 ≤ s.quantity → 0 ≤ tx.quantity →
        portfolioStep s tx =
          { s with
              quantity := s.quantity + tx.quantity
              avgCost := (s.quantity * s.avgCost + tx.quantity * tx.price)
                / (s.quantity + tx.quantity) }) ∧
      (jsToLower tx.type = "sell" →
        portfolioStep s tx =
          { s with
              realizedPnL := s.realizedPnL
                + (tx.price - s.avgCost) * min tx.quantity s.quantity
              quantity := s.quantity - min tx.quantity s.quantity
              avgCost := if s.quantity - min tx.quantity s.quantity = 0 then 0
                else s.avgCost }) ∧
      (jsToLower tx.type = "dividend" →
        portfolioStep s tx = { s with dividends := s.dividends + tx.amount }) ∧
      (jsToLower tx.type = "fee" →
        portfolioStep s tx = { s with fees := s.fees + tx.amount })) ∧
    (∀ txs : List InvTx,
      (sortInvTxs txs).Perm txs ∧
      (sortInvTxs txs).Pairwise (fun a b =>
        jsStrLt a.date b.date = true ∨ (a.date = b.date ∧ a.id ≤ b.id))) := by
  constructor
  · intro s tx
    refine ⟨?_, ?_, ?_, ?_⟩
    · intro hty hq hqq
      unfold portfolioStep
      dsimp only
      rw [if_pos hty]
      have havg : (if 0 < s.quantity + tx.quantity then
            (s.avgCost * s.quantity + tx.quantity * tx.price)
              / (s.quantity + tx.quantity)
          else 0)
          = (s.quantity * s.avgCost + tx.quantity * tx.price)
              / (s.quantity + tx.quantity) := by
        by_cases hpos : 0 < s.quantity + tx.quantity
        · rw [if_pos hpos]
          ring_nf
        · rw [if_neg hpos]
          have h0 : s.quantity + tx.quantity = 0 :=
            le_antisymm (not_lt.mp hpos) (add_nonneg hq hqq)
          rw [h0, div_zero]
      rw [havg]
    · intro hty
      unfold portfolioStep
      dsimp only
      rw [if_neg (by rw [hty]; decide), if_pos hty]
      have hmax : max 0 (s.quantity - min tx.quantity s.quantity)
          = s.quantity - min tx.quantity s.quantity :=
        max_eq_right (sub_nonneg.mpr (min_le_right _ _))
      rw [hmax]
    · intro hty
      unfold portfolioStep
      dsimp only
      rw [if_neg (by rw [hty]; decide), if_neg (by rw [hty]; decide),
        if_pos hty]
    · intro hty
      unfold portfolioStep
      dsimp only
      rw [if_neg (by rw [hty]; decide), if_neg (by rw [hty]; decide),
        if_neg (by rw [hty]; decide), if_pos hty]
  · intro txs
    refine ⟨List.mergeSort_perm _ _, ?_⟩
    have hs := @List.sorted_mergeSort InvTx
      (fun a b =>
        jsStrLt a.date b.date || (a.date = b.date && a.id ≤ b.id))
      invTxLe_trans invTxLe_total txs
    refine hs.imp ?_
    intro a b hab
    simpa only [Bool.or_eq_true, Bool.and_eq_true, decide_eq_true_eq] using hab

/-- Witness for C2: buying 2 units at 8 on a 10-unit position with average
cost 5 moves the position to 12 units at average cost 11/2. -/
theorem portfolio_weighted_average_cost_witness :
    jsToLower "buy" = "buy" ∧ (0 : ℚ) ≤ 10 ∧ (0 : ℚ) ≤ 2 ∧
    portfolioStep ⟨10, 5, 0, 0, 0⟩ { type := "buy", quantity := 2, price := 8 }
      = ⟨12, 11 / 2, 0, 0, 0⟩ := by
  refine ⟨by decide, by norm_num, by norm_num, ?_⟩
  have h := (portfolio_weighted_average_cost.1 ⟨10, 5, 0, 0, 0⟩
    { type := "buy", quantity := 2, price := 8 }).1 (by decide)
    (by norm_num) (by norm_num)
  rw [h]
  simp only [PosState.mk.injEq]
  norm_num

/-- One accumulator step keeps a non-negative quantity non-negative, provided
a buy carries a non-negative quantity. -/
theorem portfolioStep_quantity_nonneg (s : PosState) (tx : InvTx)
    (hs : 0 ≤ s.quantity)
    (hbuy : jsToLower tx.type = "buy" → 0 ≤ tx.quantity) :
    0 ≤ (portfolioStep s tx).quantity := by
  unfold portfolioStep
  dsimp only
  by_cases h1 : jsToLower tx.type = "buy"
  · rw [if_pos h1]
    exact add_nonneg hs (hbuy h1)
  · rw [if_neg h1]
    by_cases h2 : jsToLower tx.type = "sell"
    · rw [if_pos h2]
      exact le_max_left 0 _
    · rw [if_neg h2]
      by_cases h3 : jsToLower tx.type = "dividend"
      · rw [if_pos h3]; exact hs
      · rw [if_neg h3]
        by_cases h4 : jsToLower tx.type = "fee"
        · rw [if_pos h4]; exact hs
        · rw [if_neg h4]; exact hs

/-- Folding the accumulator over any transaction list with non-negative buy
quantities keeps the quantity non-negative. -/
theorem foldl_portfolioStep_nonneg : ∀ (l : List InvTx) (s : PosState),
    0 ≤ s.quantity →
    (∀ tx ∈ l, jsToLower tx.type = "buy" → 0 ≤ tx.quantity) →
    0 ≤ (l.foldl portfolioStep s).quantity := by
  intro l
  induction l with
  | nil => intro s hs _; exact hs
  | cons hd tl ih =>
    intro s hs hl
    simp only [List.foldl_cons]
    exact ih _ (portfolioStep_quantity_nonneg s hd hs
        (hl hd (List.mem_cons_self _ _)))
      fun tx htx => hl tx (List.mem_cons_of_mem _ htx)

/-- The whole `getPortfolio` loop preserves non-negative quantities across
every tracked asset state. -/
theorem portfolioLoop_nonneg : ∀ (txs : List InvTx)
    (states : List (ℤ × PosState)),
    (∀ pr ∈ states, 0 ≤ pr.2.quantity) →
    (∀ tx ∈ txs, jsToLower tx.type = "buy" → 0 ≤ tx.quantity) →
    ∀ pr ∈ portfolioLoop states txs, 0 ≤ pr.2.quantity := by
  intro txs
  induction txs with
  | nil => intro states hstates _; exact hstates
  | cons hd tl ih =>
    intro states hstates htxs
    unfold portfolioLoop
    simp only [List.foldl_cons]
    have hstep : ∀ pr ∈ states.map (fun p =>
        if p.1 = hd.investmentId then (p.1, portfolioStep p.2 hd) else p),
        0 ≤ pr.2.quantity := by
      intro pr hpr
      obtain ⟨p0, hp0, hp0e⟩ := List.mem_map.mp hpr
      by_cases hid : p0.1 = hd.investmentId
      · rw [if_pos hid] at hp0e
        rw [← hp0e]
        exact portfolioStep_quantity_nonneg p0.2 hd (hstates p0 hp0)
          (htxs hd (List.mem_cons_self _ _))
      · rw [if_neg hid] at hp0e
        rw [← hp0e]
        exact hstates p0 hp0
    exact ih _ hstep fun tx htx => htxs tx (List.mem_cons_of_mem _ htx)

/-- C4: quantities are clamped at zero.  `addInvestmentTransaction` only
records buys and sells with positive quantity; under that shape every state the
`getPortfolio` loop passes through has non-negative quantities (a sell disposes
of at most the held quantity), and every per-asset position it returns has a
non-negative quantity. -/
theorem portfolio_quantity_clamped_nonneg :
    (∀ (date : String) (investmentId : ℤ) (ty : String)
        (quantity price amount : Option ℚ),
      addInvestmentTxValid date investmentId ty quantity price amount = true →
      ty = "buy" ∨ ty = "sell" → ∃ qv, quantity = some qv ∧ 0 < qv) ∧
    (∀ (states : List (ℤ × PosState)) (txs : List InvTx),
      (∀ pr ∈ states, 0 ≤ pr.2.quantity) →
      (∀ tx ∈ txs, jsToLower tx.type = "buy" → 0 ≤ tx.quantity) →
      ∀ (k : ℕ), ∀ pr ∈ portfolioLoop states (txs.take k), 0 ≤ pr.2.quantity) ∧
    (∀ (txs : List InvTx) (aid : ℤ),
      (∀ tx ∈ txs, jsToLower tx.type = "buy" → 0 ≤ tx.quantity) →
      0 ≤ (getPortfolioPosition txs aid).quantity) := by
  refine ⟨?_, ?_, ?_⟩
  · intro date investmentId ty quantity price amount hvalid hty
    unfold addInvestmentTxValid at hvalid
    have hbs : (ty = "buy" || ty = "sell") = true := by
      rcases hty with rfl | rfl <;> simp
    simp only [hbs, Bool.not_true, Bool.false_or, Bool.and_eq_true,
      decide_eq_true_eq] at hvalid
    obtain ⟨⟨-, ⟨hq, -⟩⟩, -⟩ := hvalid
    cases quantity with
    | none => simp [Option.elim] at hq
    | some qv => exact ⟨qv, rfl, by simpa [Option.elim] using hq⟩
  · intro states txs hstates htxs k
    exact portfolioLoop_nonneg (txs.take k) states hstates
      fun tx htx => htxs tx (List.take_subset k txs htx)
  · intro txs aid htxs
    unfold getPortfolioPosition
    apply foldl_portfolioStep_nonneg _ _ (le_refl 0)
    intro tx htx
    exact htxs tx (List.mem_mergeSort.mp (List.mem_filter.mp htx).1)

/-- Witness for C4: over-selling a 5-unit position leaves the returned
quantity non-negative. -/
theorem portfolio_quantity_clamped_nonneg_witness :
    0 ≤ (getPortfolioPosition
      [{ id := 1, date := "2024-01-01", investmentId := 1, type := "buy",
         quantity := 5, price := 10 },
       { id := 2, date := "2024-01-02", investmentId := 1, type := "sell",
         quantity := 10, price := 12 }] 1).quantity := by
  apply portfolio_quantity_clamped_nonneg.2.2
  intro tx htx hb
  simp only [List.mem_cons, List.not_mem_nil, or_false] at htx
  rcases htx with rfl | rfl
  · norm_num
  · exact absurd hb (by decide)

/-- Appending one transaction extends one category total. -/
theorem catTotal_append (l : List RTx) (t : RTx) (c : String) :
    catTotal (l ++ [t]) c
      = catTotal l c + (if t.category = c then t.amount else 0) := by
  unfold catTotal
  rw [List.filter_append, List.map_append, List.sum_append]
  by_cases h : t.category = c <;> simp [h]

/-- Appending one transaction extends one category count. -/
theorem catCount_append (l : List RTx) (t : RTx) (c : String) :
    catCount (l ++ [t]) c
      = catCount l c + (if t.category = c then 1 else 0) := by
  unfold catCount
  rw [List.filter_append, List.length_append]
  by_cases h : t.category = c <;> simp [h]

/-- A category that never occurs has total zero. -/
theorem catTotal_eq_zero (l : List RTx) (c : String)
    (h : ∀ t ∈ l, t.category ≠ c) : catTotal l c = 0 := by
  unfold catTotal
  have hfil : l.filter (fun t => t.category = c) = [] := by
    rw [List.filter_eq_nil_iff]
    intro a ha
    simpa using h a ha
  rw [hfil]
  rfl

/-- A category that never occurs has count zero. -/
theorem catCount_eq_zero (l : List RTx) (c : String)
    (h : ∀ t ∈ l, t.category ≠ c) : catCount l c = 0 := by
  unfold catCount
  have hfil : l.filter (fun t => t.category = c) = [] := by
    rw [List.filter_eq_nil_iff]
    intro a ha
    simpa using h a ha
  rw [hfil]
  rfl

/-- The in-place `byCategory` update keeps each entry's category. -/
theorem catUpsert_update_cat (t : RTx) (e : CatEntry) :
    ((fun e : CatEntry => if e.category = t.category then
      { e with total := e.total + t.amount, count := e.count + 1 }
      else e) e).category = e.category := by
  dsimp only
  split <;> rfl

/-- The `byCategory` grouping loop produces one entry per distinct category,
holding that category's amount total and transaction count. -/
theorem groupByCategory_spec : ∀ l : List RTx,
    ((groupByCategory l).map (fun e => e.category)).Nodup ∧
    (∀ c : String,
      (∃ e ∈ groupByCategory l, e.category = c) ↔ ∃ t ∈ l, t.category = c) ∧
    (∀ e ∈ groupByCategory l,
      e.total = catTotal l e.category ∧ e.count = catCount l e.category) := by
  intro l
  induction l using List.reverseRecOn with
  | nil =>
    refine ⟨by simp [groupByCategory], ?_, by simp [groupByCategory]⟩
    intro c
    simp [groupByCategory]
  | append_singleton l t ih =>
    obtain ⟨ihnd, ihmem, ihvals⟩ := ih
    have hfold : groupByCategory (l ++ [t]) = catUpsert (groupByCategory l) t := by
      unfold groupByCategory
      rw [List.foldl_append]
      rfl
    rw [hfold]
    unfold catUpsert
    by_cases hpres : (groupByCategory l).any (fun e => e.category = t.category)
    · rw [if_pos hpres]
      have hucat := catUpsert_update_cat t
      have hmapcat : (((groupByCategory l).map (fun e : CatEntry =>
            if e.category = t.category then
              { e with total := e.total + t.amount, count := e.count + 1 }
            else e)).map fun e => e.category)
          = (groupByCategory l).map fun e => e.category := by
        rw [List.map_map]
        exact List.map_congr_left fun e _ => hucat e
      refine ⟨by rw [hmapcat]; exact ihnd, ?_, ?_⟩
      · intro c
        constructor
        · rintro ⟨e, he, rfl⟩
          obtain ⟨e0, he0, rfl⟩ := List.mem_map.mp he
          rw [hucat]
          obtain ⟨tx, htx, hcat⟩ := (ihmem e0.category).mp ⟨e0, he0, rfl⟩
          exact ⟨tx, List.mem_append_left _ htx, hcat⟩
        · rintro ⟨tx, htx, hcat⟩
          rcases List.mem_append.mp htx with htx | htx
          · obtain ⟨e, he, hecat⟩ := (ihmem c).mpr ⟨tx, htx, hcat⟩
            exact ⟨_, List.mem_map_of_mem _ he, by rw [hucat]; exact hecat⟩
          · have htt : tx = t := by simpa using htx
            subst htt
            simp only [List.any_eq_true, decide_eq_true_eq] at hpres
            obtain ⟨e, he, hecat⟩ := hpres
            exact ⟨_, List.mem_map_of_mem _ he,
              by rw [hucat]; rw [hecat, hcat]⟩
      · intro e he
        obtain ⟨e0, he0, rfl⟩ := List.mem_map.mp he
        have hv := ihvals e0 he0
        rw [hucat]
        by_cases hcat : e0.category = t.category
        · rw [if_pos hcat]
          constructor
          · show e0.total + t.amount = catTotal (l ++ [t]) e0.category
            rw [catTotal_append, if_pos hcat.symm, hv.1]
          · show e0.count + 1 = catCount (l ++ [t]) e0.category
            rw [catCount_append, if_pos hcat.symm, hv.2]
        · rw [if_neg hcat]
          have hne : t.category ≠ e0.category := fun h => hcat h.symm
          constructor
          · rw [catTotal_append, if_neg hne, add_zero]
            exact hv.1
          · rw [catCount_append, if_neg hne, add_zero]
            exact hv.2
    · rw [if_neg hpres]
      have habs : ∀ e ∈ groupByCategory l, e.category ≠ t.category := by
        intro e he heq
        exact hpres (List.any_eq_true.mpr ⟨e, he, by simp [heq]⟩)
      have hnotl : ∀ tx ∈ l, tx.category ≠ t.category := by
        intro tx htx heq
        obtain ⟨e, he, hecat⟩ := (ihmem t.category).mpr ⟨tx, htx, heq⟩
        exact habs e he hecat
      refine ⟨?_, ?_, ?_⟩
      · rw [List.map_append]
        apply List.Nodup.append ihnd (by simp)
        intro a ha hb
        simp only [List.map_cons, List.map_nil, List.mem_singleton] at hb
        subst hb
        obtain ⟨e, he, hecat⟩ := List.mem_map.mp ha
        exact habs e he hecat
      · intro c
        constructor
        · rintro ⟨e, he, rfl⟩
          rcases List.mem_append.mp he with he | he
          · obtain ⟨tx, htx, h⟩ := (ihmem e.category).mp ⟨e, he, rfl⟩
            exact ⟨tx, List.mem_append_left _ htx, h⟩
          · have hef : e = { category := t.category, type := t.type,
                             total := t.amount, count := 1 } := by
              simpa using he
            subst hef
            exact ⟨t, List.mem_append_right _ (by simp), rfl⟩
        · rintro ⟨tx, htx, hcat⟩
          rcases List.mem_append.mp htx with htx | htx
          · obtain ⟨e, he, h⟩ := (ihmem c).mpr ⟨tx, htx, hcat⟩
            exact ⟨e, List.mem_append_left _ he, h⟩
          · have htt : tx = t := by simpa using htx
            exact ⟨{ category := t.category, type := t.type,
                     total := t.amount, count := 1 },
              List.mem_append_right _ (by simp), htt ▸ hcat⟩
      · intro e he
        rcases List.mem_append.mp he with he | he
        · have hv := ihvals e he
          have hne : t.category ≠ e.category := fun h => habs e he h.symm
          constructor
          · rw [catTotal_append, if_neg hne, add_zero]
            exact hv.1
          · rw [catCount_append, if_neg hne, add_zero]
            exact hv.2
        · have hef : e = { category := t.category, type := t.type,
                           total := t.amount, count := 1 } := by
            simpa using he
          subst hef
          constructor
          · show t.amount = catTotal (l ++ [t]) t.category
            rw [catTotal_append, if_pos rfl, catTotal_eq_zero l _ hnotl,
              zero_add]
          · show 1 = catCount (l ++ [t]) t.category
            rw [catCount_append, if_pos rfl, catCount_eq_zero l _ hnotl,
              zero_add]

/-- The credit/debit accumulation loop computes the sum over the filtered
list. -/
theorem foldl_filter_sum (p : RTx → Prop) [DecidablePred p] :
    ∀ (l : List RTx) (init : ℚ),
      l.foldl (fun acc t => if p t then acc + t.amount else acc) init
        = init + ((l.filter fun t => decide (p t)).map fun t => t.amount).sum := by
  intro l
  induction l with
  | nil => intro init; simp
  | cons hd tl ih =>
    intro init
    simp only [List.foldl_cons, List.filter_cons]
    by_cases hp : p hd
    · rw [if_pos hp, ih]
      simp [hp, add_assoc]
    · rw [if_neg hp, ih]
      simp [hp]

/-- The transaction list `getReportByPeriod` aggregates is a permutation of
the date-range filter of the sheet. -/
theorem queryByPeriod_perm (sd ed : String) (txs : List RTx)
    (hsd : sd ≠ "") (hed : ed ≠ "") :
    (queryByPeriod sd ed txs).Perm
      (txs.filter fun t => jsStrLe sd t.date && jsStrLe t.date ed) := by
  unfold queryByPeriod sortByDateDesc queryDateFilter
  rw [if_neg hsd, if_neg hed]
  refine (List.mergeSort_perm _ _).trans ?_
  rw [List.filter_filter]
  have hcomm : (fun t : RTx => jsStrLe t.date ed && jsStrLe sd t.date)
      = fun t : RTx => jsStrLe sd t.date && jsStrLe t.date ed := by
    funext t
    exact Bool.and_comm _ _
  rw [hcomm]

/-- C5: `getReportByPeriod` is a GROUP BY / SUM over the in-range
transactions: `totalCredits` and `totalDebits` are the sums of the credit and
debit amounts, `balance` is their difference, `transactionCount` the number of
in-range transactions, and `byCategory` holds one entry per distinct category
with that category's total and count, sorted by total descending. -/
theorem report_is_group_by_sum (sd ed : String) (txs : List RTx)
    (hsd : sd ≠ "") (hed : ed ≠ "") :
    (getReportByPeriod sd ed txs).summary.totalCredits
      = (((txs.filter fun t => jsStrLe sd t.date && jsStrLe t.date ed).filter
          fun t => t.type = "credit").map fun t => t.amount).sum ∧
    (getReportByPeriod sd ed txs).summary.totalDebits
      = (((txs.filter fun t => jsStrLe sd t.date && jsStrLe t.date ed).filter
          fun t => t.type = "debit").map fun t => t.amount).sum ∧
    (getReportByPeriod sd ed txs).summary.balance
      = (getReportByPeriod sd ed txs).summary.totalCredits
        - (getReportByPeriod sd ed txs).summary.totalDebits ∧
    (getReportByPeriod sd ed txs).summary.transactionCount
      = (txs.filter fun t => jsStrLe sd t.date && jsStrLe t.date ed).length ∧
    (∀ e ∈ (getReportByPeriod sd ed txs).byCategory,
      e.total = catTotal (txs.filter fun t => jsStrLe sd t.date && jsStrLe t.date ed)
          e.category ∧
      e.count = catCount (txs.filter fun t => jsStrLe sd t.date && jsStrLe t.date ed)
          e.category) ∧
    ((getReportByPeriod sd ed txs).byCategory.map fun e => e.category).Nodup ∧
    (∀ c : String,
      (∃ e ∈ (getReportByPeriod sd ed txs).byCategory, e.category = c)
        ↔ ∃ t ∈ txs.filter fun t => jsStrLe sd t.date && jsStrLe t.date ed,
            t.category = c) ∧
    (getReportByPeriod sd ed txs).byCategory.Pairwise
      (fun a b => b.total ≤ a.total) := by
  have hperm := queryByPeriod_perm sd ed txs hsd hed
  have hTC : (getReportByPeriod sd ed txs).summary.totalCredits
      = (queryByPeriod sd ed txs).foldl
          (fun acc t => if t.type = "credit" then acc + t.amount else acc) 0 := rfl
  have hTD : (getReportByPeriod sd ed txs).summary.totalDebits
      = (queryByPeriod sd ed txs).foldl
          (fun acc t => if t.type = "debit" then acc + t.amount else acc) 0 := rfl
  have hCount : (getReportByPeriod sd ed txs).summary.transactionCount
      = (queryByPeriod sd ed txs).length := rfl
  have hByCat : (getReportByPeriod sd ed txs).byCategory
      = (groupByCategory (queryByPeriod sd ed txs)).mergeSort
          (fun a b => b.total ≤ a.total) := rfl
  obtain ⟨hnd, hmem, hvals⟩ := groupByCategory_spec (queryByPeriod sd ed txs)
  refine ⟨?_, ?_, rfl, ?_, ?_, ?_, ?_, ?_⟩
  · rw [hTC, foldl_filter_sum, zero_add]
    exact ((hperm.filter _).map _).sum_eq
  · rw [hTD, foldl_filter_sum, zero_add]
    exact ((hperm.filter _).map _).sum_eq
  · rw [hCount]
    exact hperm.length_eq
  · intro e he
    rw [hByCat] at he
    have he0 := List.mem_mergeSort.mp he
    have hv := hvals e he0
    constructor
    · rw [hv.1]
      unfold catTotal
      exact ((hperm.filter _).map _).sum_eq
    · rw [hv.2]
      unfold catCount
      exact (hperm.filter _).length_eq
  · rw [hByCat]
    have hp : ((groupByCategory (queryByPeriod sd ed txs)).mergeSort
        (fun a b => b.total ≤ a.total)).Perm
        (groupByCategory (queryByPeriod sd ed txs)) := List.mergeSort_perm _ _
    exact ((hp.map _).nodup_iff).mpr hnd
  · intro c
    rw [hByCat]
    constructor
    · rintro ⟨e, he, rfl⟩
      obtain ⟨t, ht, hcat⟩ := (hmem e.category).mp
        ⟨e, List.mem_mergeSort.mp he, rfl⟩
      exact ⟨t, hperm.mem_iff.mp ht, hcat⟩
    · rintro ⟨t, ht, hcat⟩
      obtain ⟨e, he, h⟩ := (hmem c).mpr ⟨t, hperm.mem_iff.mpr ht, hcat⟩
      exact ⟨e, List.mem_mergeSort.mpr he, h⟩
  · rw [hByCat]
    have hs := @List.sorted_mergeSort CatEntry
      (fun a b => b.total ≤ a.total)
      (fun a b c h1 h2 => by
        simp only [decide_eq_true_eq] at h1 h2 ⊢
        exact le_trans h2 h1)
      (fun a b => by
        simp only [Bool.or_eq_true, decide_eq_true_eq]
        exact le_total b.total a.total)
      (groupByCategory (queryByPeriod sd ed txs))
    refine hs.imp ?_
    intro a b hab
    simpa only [decide_eq_true_eq] using hab

/-- Witness for C5: a two-row sheet with one row inside the period reports a
transaction count of one. -/
theorem report_is_group_by_sum_witness :
    ("2024-01-01" : String) ≠ "" ∧ ("2024-12-31" : String) ≠ "" ∧
    (getReportByPeriod "2024-01-01" "2024-12-31"
      [{ date := "2024-03-05", type := "credit", category := "Salário",
         amount := 10 },
       { date := "2025-01-01", type := "debit", category := "Mercado",
         amount := 5 }]).summary.transactionCount = 1 := by
  refine ⟨by decide, by decide, ?_⟩
  have h := (report_is_group_by_sum "2024-01-01" "2024-12-31"
    [{ date := "2024-03-05", type := "credit", category := "Salário",
       amount := 10 },
     { date := "2025-01-01", type := "debit", category := "Mercado",
       amount := 5 }] (by decide) (by decide)).2.2.2.1
  rw [h]
  decide

/-- One `statementImportCommit` loop iteration: the dedup invariant (appended
hashes are distinct, absent from the sheet and recorded in the batch set) is
preserved, and exactly one bucket — appended rows, invalid skips or duplicate
skips — grows when the item is enabled. -/
theorem commitStep_step (digest : String → String) (cats : List Category)
    (existing : List String) (ctx : CommitCtx)
    (ovs : ℕ → Option ImportOverride) (acc : CommitAcc) (item : ParsedRow)
    (h1 : (acc.rows.map fun r => r.importHash).Nodup)
    (h2 : ∀ r ∈ acc.rows, r.importHash ∉ existing)
    (h3 : ∀ r ∈ acc.rows, r.importHash ∈ acc.seen) :
    (((commitStep digest cats existing ctx ovs acc item).rows.map
        fun r => r.importHash).Nodup ∧
     (∀ r ∈ (commitStep digest cats existing ctx ovs acc item).rows,
        r.importHash ∉ existing) ∧
     (∀ r ∈ (commitStep digest cats existing ctx ovs acc item).rows,
        r.importHash ∈ (commitStep digest cats existing ctx ovs acc item).seen)) ∧
    ((commitStep digest cats existing ctx ovs acc item).rows.length
        + (commitStep digest cats existing ctx ovs acc item).skippedInvalid
        + (commitStep digest cats existing ctx ovs acc item).skippedDuplicates
      = acc.rows.length + acc.skippedInvalid + acc.skippedDuplicates
        + (if ((ovs item.rowNumber).bind fun o => o.enabled).getD true then 1
           else 0)) := by
  unfold commitStep
  dsimp only
  by_cases hen : ((ovs item.rowNumber).bind fun o => o.enabled).getD true = true
  · rw [if_neg (by simp [hen])]
    have hcnt : (if ((ovs item.rowNumber).bind fun o => o.enabled).getD true
        then 1 else 0) = 1 := by simp [hen]
    rw [hcnt]
    by_cases hval :
        (statementImportApplyOverride_ item (ovs item.rowNumber)
          ctx.defaultPaymentMethod).valid = true
    · rw [if_neg (by simp [hval])]
      generalize hres :
        (if (statementImportApplyOverride_ item (ovs item.rowNumber)
              ctx.defaultPaymentMethod).category = "" then
          { statementImportApplyOverride_ item (ovs item.rowNumber)
              ctx.defaultPaymentMethod with
            category :=
              if (statementImportApplyOverride_ item (ovs item.rowNumber)
                  ctx.defaultPaymentMethod).type = "debit" then
                ctx.defaultDebitCategory
              else ctx.defaultCreditCategory }
        else
          statementImportApplyOverride_ item (ovs item.rowNumber)
            ctx.defaultPaymentMethod) = res
      by_cases hcat : res.category = ""
      · rw [if_pos hcat]
        exact ⟨⟨h1, h2, h3⟩, by dsimp only; omega⟩
      · rw [if_neg hcat]
        by_cases hcv : validateCategory cats res.category res.type = true
        · rw [if_neg (by simp [hcv])]
          by_cases hdup :
              statementImportComputeHash_ digest res ctx.importSource
                  ctx.importAccount ∈ acc.seen ∨
              statementImportComputeHash_ digest res ctx.importSource
                  ctx.importAccount ∈ existing
          · rw [if_pos hdup]
            exact ⟨⟨h1, h2, h3⟩, by dsimp only; omega⟩
          · rw [if_neg hdup]
            push_neg at hdup
            refine ⟨⟨?_, ?_, ?_⟩, ?_⟩
            · rw [List.map_append]
              apply List.Nodup.append h1 (by simp)
              intro a ha hb
              simp only [List.map_cons, List.map_nil,
                List.mem_singleton] at hb
              subst hb
              obtain ⟨r, hr, hrh⟩ := List.mem_map.mp ha
              exact absurd (hrh ▸ h3 r hr) (by simpa using hdup.1)
            · intro r hr
              rcases List.mem_append.mp hr with hr | hr
              · exact h2 r hr
              · have hrr : r = buildImportRow acc.nextId res ctx
                    (statementImportComputeHash_ digest res ctx.importSource
                      ctx.importAccount) := by simpa using hr
                subst hrr
                exact hdup.2
            · intro r hr
              rcases List.mem_append.mp hr with hr | hr
              · exact List.mem_cons_of_mem _ (h3 r hr)
              · have hrr : r = buildImportRow acc.nextId res ctx
                    (statementImportComputeHash_ digest res ctx.importSource
                      ctx.importAccount) := by simpa using hr
                subst hrr
                exact List.mem_cons_self _ _
            · simp only [List.length_append, List.length_cons,
                List.length_nil]
              omega
        · rw [if_pos (by simpa using hcv)]
          exact ⟨⟨h1, h2, h3⟩, by dsimp only; omega⟩
    · rw [if_pos (by simpa using hval)]
      exact ⟨⟨h1, h2, h3⟩, by dsimp only; omega⟩
  · rw [if_pos (by simpa using hen)]
    have hcnt : (if ((ovs item.rowNumber).bind fun o => o.enabled).getD true
        then 1 else 0) = 0 := by simp [hen]
    rw [hcnt]
    exact ⟨⟨h1, h2, h3⟩, by omega⟩

/-- Folding the whole `statementImportCommit` item loop preserves the dedup
invariant and counts every enabled item into exactly one bucket. -/
theorem commitLoop_spec (digest : String → String) (cats : List Category)
    (existing : List String) (ctx : CommitCtx)
    (ovs : ℕ → Option ImportOverride) :
    ∀ (items : List ParsedRow) (acc : CommitAcc),
      (acc.rows.map fun r => r.importHash).Nodup →
      (∀ r ∈ acc.rows, r.importHash ∉ existing) →
      (∀ r ∈ acc.rows, r.importHash ∈ acc.seen) →
      (((items.foldl (commitStep digest cats existing ctx ovs) acc).rows.map
          fun r => r.importHash).Nodup ∧
       (∀ r ∈ (items.foldl (commitStep digest cats existing ctx ovs) acc).rows,
          r.importHash ∉ existing) ∧
       ((items.foldl (commitStep digest cats existing ctx ovs) acc).rows.length
          + (items.foldl (commitStep digest cats existing ctx ovs) acc).skippedInvalid
          + (items.foldl (commitStep digest cats existing ctx ovs) acc).skippedDuplicates
        = acc.rows.length + acc.skippedInvalid + acc.skippedDuplicates
          + (items.filter fun it =>
              ((ovs it.rowNumber).bind fun o => o.enabled).getD true).length)) := by
  intro items
  induction items with
  | nil => intro acc ha hb _; exact ⟨ha, hb, by simp⟩
  | cons it tl ih =>
    intro acc ha hb hc
    simp only [List.foldl_cons]
    obtain ⟨⟨s1, s2, s3⟩, scount⟩ :=
      commitStep_step digest cats existing ctx ovs acc it ha hb hc
    obtain ⟨t1, t2, tcount⟩ :=
      ih (commitStep digest cats existing ctx ovs acc it) s1 s2 s3
    refine ⟨t1, t2, ?_⟩
    rw [tcount, scount, List.filter_cons]
    by_cases hp : ((ovs it.rowNumber).bind fun o => o.enabled).getD true = true
    · simp [hp]
      omega
    · simp [hp]

/-- C3: the statement importer's dedup key for a candidate row is the digest of
`date|type|amount|lowercased-trimmed-description|lowercased-account|lowercased-source`,
a row is appended only when its key is new, so the keys of the rows appended by
one commit are pairwise distinct and disjoint from the pre-existing
`importHash` column values, and every enabled candidate lands in exactly one of
appended / skippedInvalid / skippedDuplicates. -/
theorem statement_import_sha256_dedup (digest : String → String)
    (cats : List Category) (existing : List String) (ctx : CommitCtx)
    (ovs : ℕ → Option ImportOverride) (firstId : ℤ) (items : List ParsedRow) :
    (∀ (item : ParsedRow) (source account : String),
      statementImportComputeHash_ digest item source account
        = digest (item.date ++ "|" ++ item.type ++ "|" ++ toString item.amount
            ++ "|" ++ jsToLower (jsTrim item.description) ++ "|"
            ++ jsToLower (jsTrim account) ++ "|" ++ jsToLower (jsTrim source))) ∧
    ((commitLoop digest cats existing ctx ovs firstId items).rows.map
        fun r => r.importHash).Nodup ∧
    (∀ r ∈ (commitLoop digest cats existing ctx ovs firstId items).rows,
        r.importHash ∉ existing) ∧
    ((commitLoop digest cats existing ctx ovs firstId items).rows.length
        + (commitLoop digest cats existing ctx ovs firstId items).skippedInvalid
        + (commitLoop digest cats existing ctx ovs firstId items).skippedDuplicates
      = (items.filter fun it =>
          ((ovs it.rowNumber).bind fun o => o.enabled).getD true).length) := by
  obtain ⟨a, b, c⟩ := commitLoop_spec digest cats existing ctx ovs items
    { nextId := firstId, seen := [], rows := [], skippedInvalid := 0,
      skippedDuplicates := 0 }
    (by simp) (by simp) (by simp)
  exact ⟨fun item source account => rfl, a, b, by simpa using c⟩

/-- Witness for C3: an empty candidate list commits nothing and the payload of
a concrete item is the pipe-joined string. -/
theorem statement_import_sha256_dedup_witness :
    ((commitLoop (fun s => s) [] [] {} (fun _ => none) 1 []).rows.map
        fun r => r.importHash).Nodup ∧
    statementImportComputeHash_ (fun s => s)
        { date := "2024-01-02", type := "debit", amount := 3,
              description := " Mercado ", valid := true } "Banco X" "Conta 1"
      = "2024-01-02|debit|3|mercado|conta 1|banco x" := by
  have h := statement_import_sha256_dedup (fun s => s) [] [] {}
    (fun _ => none) 1 []
  refine ⟨h.2.1, ?_⟩
  rw [h.1 { date := "2024-01-02", type := "debit", amount := 3,
              description := " Mercado ", valid := true } "Banco X" "Conta 1"]
  rfl

/-- C8: every token-guarded mutating endpoint refuses an invalid session with
`success = false` and the message `Sessão inválida ou expirada`, leaving the
stored state untouched. -/
theorem invalid_session_no_effect :
    ∀ (token : String) (st : AppState),
      validateSession token st.sessionToken = false →
      ∀ (td : TxData) (parentId now : String) (id : ℤ) (inv : Option InvData)
        (items : List ParsedRow) (ovs : ℕ → Option ImportOverride)
        (ctx : CommitCtx) (digest : String → String),
        createTransaction token td parentId now st = (invalidSession, st) ∧
        updateTransaction token id td now st = (invalidSession, st) ∧
        deleteTransaction token id st = (invalidSession, st) ∧
        createInstallmentTransactions token td parentId now st
          = (invalidSession, st) ∧
        statementImportCommit token items ovs ctx digest st
          = (invalidSession, st) ∧
        upsertInvestment token inv now st = (invalidSession, st) := by
  intro token st h td parentId now id inv items ovs ctx digest
  have hfail : ¬ validateSession token st.sessionToken = true := by
    simp [h]
  refine ⟨?_, ?_, ?_, ?_, ?_, ?_⟩
  · unfold createTransaction
    rw [if_pos hfail]
  · unfold updateTransaction
    rw [if_pos hfail]
  · unfold deleteTransaction
    rw [if_pos hfail]
  · unfold createInstallmentTransactions
    rw [if_pos hfail]
  · unfold statementImportCommit
    rw [if_pos hfail]
  · unfold upsertInvestment
    rw [if_pos hfail]

/-- Witness for C8: with no cached session token, every endpoint returns the
invalid-session refusal and the state is unchanged. -/
theorem invalid_session_no_effect_witness :
    validateSession "tok" (none : Option String) = false ∧
    createTransaction "tok" {} "p" "now" {} = (invalidSession, {}) ∧
    upsertInvestment "tok" none "now" {} = (invalidSession, {}) := by
  have h := invalid_session_no_effect "tok" {} (by decide) {} "p" "now" 1 none
    [] (fun _ => none) {} (fun s => s)
  exact ⟨by decide, h.1, h.2.2.2.2.2⟩

/-- Endpoint `createInstallmentTransactions` never grows the sheet past the cap. -/
theorem createInstallmentTransactions_len (token : String) (td : TxData)
    (parentId now : String) (st : AppState)
    (h : st.transactions.length ≤ 50000) :
    (createInstallmentTransactions token td parentId now st).2.transactions.length
      ≤ 50000 := by
  unfold createInstallmentTransactions
  by_cases hv : validateSession token st.sessionToken = true
  · rw [if_neg (by simp [hv])]
    dsimp only
    by_cases hval : (validateTransactionData st.categories td).valid = true
    · rw [if_neg (by simp [hval])]
      cases td.installments with
      | none => exact h
      | some n =>
        dsimp only
        by_cases hn : n < 2 ∨ 60 < n
        · rw [if_pos hn]
          exact h
        · rw [if_neg hn]
          by_cases hcap : (50000 : ℤ) < (getDataRowCount st.transactions : ℤ) + n
          · rw [if_pos hcap]
            exact h
          · rw [if_neg hcap]
            push_neg at hn hcap
            simp only [List.length_append, buildInstallmentRows,
              List.length_map, List.length_range]
            unfold getDataRowCount at hcap
            omega
    · rw [if_pos (by simpa using hval)]
      exact h
  · rw [if_pos hv]
    exact h

/-- Endpoint `createTransaction` never grows the sheet past the cap. -/
theorem createTransaction_len (token : String) (td : TxData)
    (parentId now : String) (st : AppState)
    (h : st.transactions.length ≤ 50000) :
    (createTransaction token td parentId now st).2.transactions.length
      ≤ 50000 := by
  unfold createTransaction
  by_cases hv : validateSession token st.sessionToken = true
  · rw [if_neg (by simp [hv])]
    by_cases hcap : 50000 ≤ getDataRowCount st.transactions
    · rw [if_pos hcap]
      exact h
    · rw [if_neg hcap]
      dsimp only
      by_cases hval : (validateTransactionData st.categories td).valid = true
      · rw [if_neg (by simp [hval])]
        by_cases hdel : td.installments.getD 0 ≠ 0 ∧ 1 < td.installments.getD 0
        · rw [if_pos hdel]
          exact createInstallmentTransactions_len token td parentId now st h
        · rw [if_neg hdel]
          simp only [List.length_append, List.length_cons, List.length_nil]
          unfold getDataRowCount at hcap
          omega
      · rw [if_pos (by simpa using hval)]
        exact h
  · rw [if_pos hv]
    exact h

/-- C9: the 50000-transaction cap.  `createTransaction` refuses with no write
once the sheet holds 50000 data rows; `createInstallmentTransactions` refuses
with no write whenever the requested batch would push the sheet past 50000
rows; and consequently every state reachable through these two endpoints holds
at most 50000 data rows. -/
theorem transaction_cap_preserved :
    (∀ (token : String) (td : TxData) (parentId now : String) (st : AppState),
      50000 ≤ st.transactions.length →
      (createTransaction token td parentId now st).1.success = false ∧
      (createTransaction token td parentId now st).2 = st) ∧
    (∀ (token : String) (td : TxData) (parentId now : String) (st : AppState)
        (n : ℤ), td.installments = some n →
      (50000 : ℤ) < (st.transactions.length : ℤ) + n →
      (createInstallmentTransactions token td parentId now st).1.success = false ∧
      (createInstallmentTransactions token td parentId now st).2 = st) ∧
    (∀ st : AppState, ReachableTx st → st.transactions.length ≤ 50000) := by
  refine ⟨?_, ?_, ?_⟩
  · intro token td parentId now st hcap
    unfold createTransaction
    by_cases hv : validateSession token st.sessionToken = true
    · rw [if_neg (by simp [hv]), if_pos (by unfold getDataRowCount; exact hcap)]
      exact ⟨rfl, rfl⟩
    · rw [if_pos hv]
      exact ⟨rfl, rfl⟩
  · intro token td parentId now st n hinst hcap
    unfold createInstallmentTransactions
    by_cases hv : validateSession token st.sessionToken = true
    · rw [if_neg (by simp [hv])]
      dsimp only
      by_cases hval : (validateTransactionData st.categories td).valid = true
      · rw [if_neg (by simp [hval]), hinst]
        dsimp only
        by_cases hn : n < 2 ∨ 60 < n
        · rw [if_pos hn]
          exact ⟨rfl, rfl⟩
        · rw [if_neg hn, if_pos (by unfold getDataRowCount; exact hcap)]
          exact ⟨rfl, rfl⟩
      · rw [if_pos (by simpa using hval)]
        exact ⟨rfl, rfl⟩
    · rw [if_pos hv]
      exact ⟨rfl, rfl⟩
  · intro st hreach
    induction hreach with
    | init st h => simp [h]
    | create st h token td parentId now ih =>
      exact createTransaction_len token td parentId now st ih
    | installments st h token td parentId now ih =>
      exact createInstallmentTransactions_len token td parentId now st ih

/-- Witness for C9: a sheet already holding 50000 rows makes
`createTransaction` refuse without writing, and an almost-full sheet makes a
3-installment request refuse without writing. -/
theorem transaction_cap_preserved_witness :
    50000 ≤ (List.replicate 50000 (default : TxRow)).length ∧
    (createTransaction "tok" {} "p" "now"
      { transactions := List.replicate 50000 default }).1.success = false ∧
    (createTransaction "tok" {} "p" "now"
      { transactions := List.replicate 50000 default }).2
      = { transactions := List.replicate 50000 default } ∧
    (createInstallmentTransactions "tok" { installments := some 3 } "p" "now"
      { transactions := List.replicate 49999 default }).1.success = false ∧
    (createInstallmentTransactions "tok" { installments := some 3 } "p" "now"
      { transactions := List.replicate 49999 default }).2
      = { transactions := List.replicate 49999 default } := by
  have h1 := transaction_cap_preserved.1 "tok" {} "p" "now"
    { transactions := List.replicate 50000 default }
    (by dsimp only; rw [List.length_replicate])
  have h2 := transaction_cap_preserved.2.1 "tok" { installments := some 3 }
    "p" "now" { transactions := List.replicate 49999 default } 3 rfl
    (by dsimp only; rw [List.length_replicate]; norm_num)
  exact ⟨by rw [List.length_replicate], h1.1, h1.2, h2.1, h2.2⟩

/-- The amount-column resolution only ever yields the types `debit` and
`credit`. -/
theorem rowAmountType_snd_cases (row : List String) (mapping : ColMapping) :
    (statementImportRowAmountType row mapping).2 = none ∨
    (statementImportRowAmountType row mapping).2 = some "debit" ∨
    (statementImportRowAmountType row mapping).2 = some "credit" := by
  unfold statementImportRowAmountType
  by_cases hmap : mapping.amountCol.isSome = true
  · rw [if_pos hmap]
    cases statementImportParseAmount_ (getCol row mapping.amountCol) with
    | none => simp
    | some parsed =>
      by_cases hneg : parsed < 0
      · simp [hneg]
      · simp [hneg]
  · rw [if_neg hmap]
    cases statementImportParseAmount_ (getCol row mapping.debitCol) with
    | none =>
      cases statementImportParseAmount_ (getCol row mapping.creditCol) with
      | none => simp
      | some c =>
        by_cases hc : c ≠ 0
        · simp [hc]
        · simp [hc]
    | some d =>
      by_cases hd : d ≠ 0
      · simp [hd]
      · cases statementImportParseAmount_ (getCol row mapping.creditCol) with
        | none => simp [hd]
        | some c =>
          by_cases hc : c ≠ 0
          · simp [hd, hc]
          · simp [hd, hc]

/-- A parsed candidate's type is always empty, `debit` or `credit`. -/
theorem rowType_cases (row : List String) (mapping : ColMapping) :
    statementImportRowType row mapping = none ∨
    statementImportRowType row mapping = some "debit" ∨
    statementImportRowType row mapping = some "credit" := by
  unfold statementImportRowType
  rcases rowAmountType_snd_cases row mapping with h | h | h <;> rw [h]
  · dsimp only
    by_cases htr : getCol row mapping.typeCol ≠ ""
    · rw [if_pos htr]
      by_cases hcred : (strIncludes (jsToLower (getCol row mapping.typeCol)) "cred"
          || strIncludes (jsToLower (getCol row mapping.typeCol)) "ent"
          || strIncludes (jsToLower (getCol row mapping.typeCol)) "rece") = true
      · rw [if_pos hcred]
        simp
      · rw [if_neg hcred]
        by_cases hdeb : (strIncludes (jsToLower (getCol row mapping.typeCol)) "deb"
            || strIncludes (jsToLower (getCol row mapping.typeCol)) "sa"
            || strIncludes (jsToLower (getCol row mapping.typeCol)) "desp") = true
        · rw [if_pos hdeb]
          simp
        · rw [if_neg hdeb]
          simp
    · rw [if_neg htr]
      simp
  · simp
  · simp

/-- C10: `statementImportParseAmount_` handles the Brazilian `1.234,56`
format, parenthesised negatives and non-numeric input; with a mapped amount
column a negative value becomes a debit of its absolute value and a
non-negative value a credit of itself; and every row marked valid carries a
positive amount and a type in `{debit, credit}`. -/
theorem import_amount_sign_rules :
    statementImportParseAmount_ "1.234,56" = some (123456 / 100) ∧
    statementImportParseAmount_ "(1.234,56)" = some (-(123456 / 100)) ∧
    statementImportParseAmount_ "abc" = none ∧
    (∀ (fallback : String → Option String) (row : List String) (rowNumber : ℕ)
        (mapping : ColMapping),
      (statementImportParseRow_ fallback row rowNumber mapping).valid = true →
      0 < (statementImportParseRow_ fallback row rowNumber mapping).amount ∧
      ((statementImportParseRow_ fallback row rowNumber mapping).type = "debit" ∨
       (statementImportParseRow_ fallback row rowNumber mapping).type = "credit")) ∧
    (∀ (fallback : String → Option String) (row : List String) (rowNumber : ℕ)
        (mapping : ColMapping) (v : ℚ),
      mapping.amountCol.isSome = true →
      statementImportParseAmount_ (getCol row mapping.amountCol) = some v →
      ((v < 0 →
        (statementImportParseRow_ fallback row rowNumber mapping).type = "debit" ∧
        (statementImportParseRow_ fallback row rowNumber mapping).amount = -v) ∧
       (0 ≤ v →
        (statementImportParseRow_ fallback row rowNumber mapping).type = "credit" ∧
        (statementImportParseRow_ fallback row rowNumber mapping).amount = v))) := by
  refine ⟨?_, ?_, ?_, ?_, ?_⟩
  · have h0 : statementImportParseAmount_ "1.234,56"
        = some ((digitsToNat ['1', '2', '3', '4'] : ℚ)
            + (digitsToNat ['5', '6'] : ℚ) / 10 ^ (['5', '6'] : List Char).length) :=
      rfl
    rw [h0]
    norm_num [show digitsToNat ['1', '2', '3', '4'] = 1234 from rfl,
      show digitsToNat ['5', '6'] = 56 from rfl]
  · have h0 : statementImportParseAmount_ "(1.234,56)"
        = some (-|(digitsToNat ['1', '2', '3', '4'] : ℚ)
            + (digitsToNat ['5', '6'] : ℚ) / 10 ^ (['5', '6'] : List Char).length|) :=
      rfl
    rw [h0]
    rw [show digitsToNat ['1', '2', '3', '4'] = 1234 from rfl,
      show digitsToNat ['5', '6'] = 56 from rfl]
    rw [abs_of_pos (by norm_num : (0 : ℚ) < (1234 : ℕ) + (56 : ℕ) / 10 ^ (['5', '6'] : List Char).length)]
    norm_num
  · rfl
  · intro fallback row rowNumber mapping hvalid
    have hval : ((statementImportParseDate_ fallback (getCol row mapping.dateCol) ≠ "" &&
        jsTrim (getCol row mapping.descriptionCol) ≠ "") &&
        ((statementImportRowAmountType row mapping).1.elim false fun a => 0 < a) &&
        (statementImportRowType row mapping).isSome) = true := hvalid
    simp only [Bool.and_eq_true] at hval
    obtain ⟨⟨-, hamount⟩, hty⟩ := hval
    constructor
    · show 0 < (statementImportRowAmountType row mapping).1.getD 0
      cases h : (statementImportRowAmountType row mapping).1 with
      | none => rw [h] at hamount; simp [Option.elim] at hamount
      | some a =>
        rw [h] at hamount
        simp only [Option.elim, decide_eq_true_eq] at hamount
        simpa [h] using hamount
    · show (statementImportRowType row mapping).getD "" = "debit" ∨
        (statementImportRowType row mapping).getD "" = "credit"
      rcases rowType_cases row mapping with h | h | h
      · rw [h] at hty; simp at hty
      · rw [h]; left; rfl
      · rw [h]; right; rfl
  · intro fallback row rowNumber mapping v hmap hparse
    have hAT : statementImportRowAmountType row mapping
        = if v < 0 then (some (-v), some "debit") else (some v, some "credit") := by
      unfold statementImportRowAmountType
      rw [if_pos hmap, hparse]
    constructor
    · intro hv
      rw [if_pos hv] at hAT
      constructor
      · show (statementImportRowType row mapping).getD "" = "debit"
        unfold statementImportRowType
        rw [hAT]
        rfl
      · show (statementImportRowAmountType row mapping).1.getD 0 = -v
        rw [hAT]
        rfl
    · intro hv
      rw [if_neg (not_lt.mpr hv)] at hAT
      constructor
      · show (statementImportRowType row mapping).getD "" = "credit"
        unfold statementImportRowType
        rw [hAT]
        rfl
      · show (statementImportRowAmountType row mapping).1.getD 0 = v
        rw [hAT]
        rfl

/-- Witness for C10: a single mapped amount column holding `-10,50` yields a
debit of 10.50. -/
theorem import_amount_sign_rules_witness :
    ({ amountCol := some 0 } : ColMapping).amountCol.isSome = true ∧
    statementImportParseAmount_ (getCol ["-10,50"] (some 0)) = some (-(21 / 2)) ∧
    (statementImportParseRow_ (fun _ => none) ["-10,50"] 1
      { amountCol := some 0 }).type = "debit" ∧
    (statementImportParseRow_ (fun _ => none) ["-10,50"] 1
      { amountCol := some 0 }).amount = 21 / 2 := by
  have hparse : statementImportParseAmount_ (getCol ["-10,50"] (some 0))
      = some (-(21 / 2)) := by
    have h0 : statementImportParseAmount_ (getCol ["-10,50"] (some 0))
        = some (-((digitsToNat ['1', '0'] : ℚ)
            + (digitsToNat ['5', '0'] : ℚ) / 10 ^ (['5', '0'] : List Char).length)) :=
      rfl
    rw [h0]
    norm_num [show digitsToNat ['1', '0'] = 10 from rfl,
      show digitsToNat ['5', '0'] = 50 from rfl]
  have h := (import_amount_sign_rules.2.2.2.2 (fun _ => none) ["-10,50"] 1
    { amountCol := some 0 } (-(21 / 2)) rfl hparse).1 (by norm_num)
  refine ⟨rfl, hparse, h.1, ?_⟩
  rw [h.2]
  norm_num

end App
